import Mathlib

/-!
Verification of the Company Intelligence Extraction Engine
(`src/agents/scraper_agent.py` of the agentic-outreach-copilot repository).

The Python code is shallowly embedded as executable Lean definitions.
External effects are abstracted as oracles supplied to each definition:

* the Page Fetcher (`WebScraper.scrape_page`) becomes a function
  `String → FetchOpts → FetchResult`, and every fetching routine
  additionally returns the list of fetch calls it performed, so that
  temporal claims about which URLs were fetched and with which options
  can be stated;
* every `re.findall` call becomes an oracle function from the haystack
  string to the list of matches that the regular expression would
  produce; the control flow that consumes those matches is embedded
  faithfully from the source.

Python strings are modelled as Lean `String`, Python floats (the
relevance and match scores, which only ever hold small decimal sums)
as `ℚ`, and Python dicts keyed by page type as association lists in
insertion order.  Raising `ZeroDivisionError` / `UnboundLocalError`
is modelled by an `Except` result.
-/

/-! ### Python string primitives

Executable models of the Python `str` operations the scraper uses
(`lower`, `title`, `capitalize`, `strip`, `split`, `replace`,
substring containment, `startswith`).  They are written as structural
recursions over `List Char` so that concrete runs reduce inside the
kernel.  All haystacks and needles in the source are ASCII, for which
these models agree with CPython. -/

/-- Python whitespace, as used by `str.split()` / `str.strip()`. -/
def pyIsSpace (c : Char) : Bool :=
  c == ' ' || c == '\t' || c == '\n' || c == '\r' ||
  c == Char.ofNat 11 || c == Char.ofNat 12

/-- Is the first list a prefix of the second (decidable, executable)? -/
def isPrefixL : List Char → List Char → Bool
  | [], _ => true
  | _ :: _, [] => false
  | a :: as, b :: bs => a == b && isPrefixL as bs

/-- Does `hay` contain `needle` as a contiguous sublist?
Models the Python `needle in hay` substring test. -/
def containsL (needle : List Char) : List Char → Bool
  | [] => needle.isEmpty
  | c :: rest => isPrefixL needle (c :: rest) || containsL needle rest

/-- Python `sub in s` (substring containment). -/
def pyContains (s sub : String) : Bool :=
  containsL sub.data s.data

/-- Python `s.startswith(p)`. -/
def pyStartsWith (s p : String) : Bool :=
  isPrefixL p.data s.data

/-- Python `s.lower()` (ASCII). -/
def pyLower (s : String) : String :=
  ⟨s.data.map Char.toLower⟩

/-- Helper for `pyTitle`: `prevCased` records whether the previous
character was a letter. -/
def pyTitleAux : List Char → Bool → List Char
  | [], _ => []
  | c :: rest, prevCased =>
    if c.isAlpha then
      (if prevCased then c.toLower else c.toUpper) :: pyTitleAux rest true
    else
      c :: pyTitleAux rest false

/-- Python `s.title()`: the first letter of every letter run is
uppercased, the remaining letters lowercased (ASCII). -/
def pyTitle (s : String) : String :=
  ⟨pyTitleAux s.data false⟩

/-- Python `s.capitalize()`: first character uppercased, rest lowercased. -/
def pyCapitalize (s : String) : String :=
  match s.data with
  | [] => ""
  | c :: rest => ⟨c.toUpper :: rest.map Char.toLower⟩

/-- Python `s.strip()` (whitespace both ends). -/
def pyStrip (s : String) : String :=
  ⟨((s.data.dropWhile pyIsSpace).reverse.dropWhile pyIsSpace).reverse⟩

/-- Python `s.rstrip(c)` for a single character. -/
def pyRstripChar (s : String) (c : Char) : String :=
  ⟨(s.data.reverse.dropWhile (· == c)).reverse⟩

/-- Python `s.lstrip(c)` for a single character. -/
def pyLstripChar (s : String) (c : Char) : String :=
  ⟨s.data.dropWhile (· == c)⟩

/-- Split a character list at every character satisfying `p`,
keeping empty pieces (like Python `s.split(sep)` for 1-char sep). -/
def splitAnyAux (p : Char → Bool) : List Char → List Char → List (List Char)
  | [], cur => [cur]
  | c :: rest, cur =>
    if p c then cur :: splitAnyAux p rest [] else splitAnyAux p rest (cur ++ [c])

/-- Python `s.split()` — split on whitespace runs, no empty pieces. -/
def pySplitWs (s : String) : List String :=
  ((splitAnyAux pyIsSpace s.data []).filter (· ≠ [])).map fun l => ⟨l⟩

/-- Fuel-driven split on a (nonempty) separator string, left to right,
non-overlapping.  Fuel is the haystack length plus one, which always
suffices because every step consumes at least one character. -/
def splitOnLAux (needle : List Char) : Nat → List Char → List Char → List (List Char)
  | 0, rest, cur => [cur ++ rest]
  | _ + 1, [], cur => [cur]
  | fuel + 1, c :: rest, cur =>
    if isPrefixL needle (c :: rest) then
      cur :: splitOnLAux needle fuel (List.drop needle.length (c :: rest)) []
    else
      splitOnLAux needle fuel rest (cur ++ [c])

/-- Python `s.split(sep)` for a nonempty separator string. -/
def pySplitOn (s sep : String) : List String :=
  if sep.data.isEmpty then [s]
  else (splitOnLAux sep.data (s.data.length + 1) s.data []).map fun l => ⟨l⟩

/-- Fuel-driven replacement of every (non-overlapping, leftmost)
occurrence of `needle` by `repl`. -/
def replaceLAux (needle repl : List Char) : Nat → List Char → List Char
  | 0, rest => rest
  | _ + 1, [] => []
  | fuel + 1, c :: rest =>
    if isPrefixL needle (c :: rest) then
      repl ++ replaceLAux needle repl fuel (List.drop needle.length (c :: rest))
    else
      c :: replaceLAux needle repl fuel rest

/-- Python `s.replace(old, new)` for a nonempty `old`. -/
def pyReplace (s old new : String) : String :=
  if old.data.isEmpty then s
  else ⟨replaceLAux old.data new.data (s.data.length + 1) s.data⟩

/-- Join a list of strings with a separator (Python `sep.join(xs)`). -/
def pyJoin (sep : String) : List String → String
  | [] => ""
  | [x] => x
  | x :: xs => x ++ sep ++ pyJoin sep xs

/-- Drop the first `n` characters of a string. -/
def dropStr (s : String) (n : Nat) : String :=
  ⟨s.data.drop n⟩

/-! ### URL / domain normalisation (`ScraperAgent._normalize_url`,
`_get_base_domain`, `_extract_company_name`) -/

/-- `ScraperAgent._normalize_url` (scraper_agent.py lines 146-150):
prefix `https://` when no scheme is present, strip trailing slashes.
Note that the empty string becomes `https://` and then `https:`; no
validation is performed. -/
def normalize_url (url : String) : String :=
  let url := if pyStartsWith url "https://" || pyStartsWith url "http://"
             then url else "https://" ++ url
  pyRstripChar url '/'

/-- The `netloc` component of `urllib.parse.urlparse`, for the URLs the
agent produces (which always carry an `http(s)` scheme or are the bare
scheme `https:`, whose netloc is empty). -/
def netlocOf (url : String) : String :=
  let rest :=
    if pyStartsWith url "https://" then dropStr url 8
    else if pyStartsWith url "http://" then dropStr url 7
    else ""
  ⟨rest.data.takeWhile fun c => !(c == '/' || c == '?' || c == '#')⟩

/-- `ScraperAgent._get_base_domain`(lines 152-161): lowercase netloc,
strip a leading `www.`, and for 3+ labels keep the last two. -/
def get_base_domain (url : String) : String :=
  let netloc := pyLower (netlocOf url)
  let netloc := if pyStartsWith netloc "www." then dropStr netloc 4 else netloc
  let parts := pySplitOn netloc "."
  if parts.length ≥ 3 then pyJoin "." (parts.drop (parts.length - 2))
  else netloc

/-- `ScraperAgent._extract_company_name` (lines 506-509). -/
def extract_company_name (url : String) : String :=
  pyCapitalize (((pySplitOn (get_base_domain url) ".").headD ""))

/-- `urllib.parse.urljoin(base, rel)` in the only form the agent uses:
`base` ends in `/` and `rel` is a relative path with no leading slash
and no scheme, so the join is concatenation. -/
def pyUrljoin (base rel : String) : String :=
  base ++ rel

/-! ### The fetcher boundary -/

/-- Options of a `WebScraper.scrape_page` call (web_scraper.py lines
94-102); `use_cache` is always left at its default and is omitted. -/
structure FetchOpts where
  wait_for_js : Bool
  scroll_page : Bool
  extra_wait_ms : Nat
  wait_for_selector : Option String
deriving DecidableEq, Repr

/-- The options of a plain `scrape_page(url)` call. -/
def defaultOpts : FetchOpts :=
  ⟨false, false, 0, none⟩

/-- The result dictionary a `scrape_page` call returns.  `text` and
`html` are `None` or a string in Python, hence `Option String`. -/
structure FetchResult where
  url : String
  title : String
  text : Option String
  html : Option String
  scraped_at : String
  success : Bool
deriving DecidableEq, Repr

/-- One recorded fetcher invocation (URL plus options). -/
structure FetchCall where
  url : String
  opts : FetchOpts
deriving DecidableEq, Repr

/-- The Python test
`result['success'] and result['text'] and len(result['text']) > 200`
shared by every cascade strategy and the manual branch. -/
def fetchOk (r : FetchResult) : Bool :=
  r.success && (match r.text with
    | some t => !t.isEmpty && decide (200 < t.length)
    | none => false)

/-! ### Oracles

`fetch` abstracts `WebScraper.scrape_page`.  Each remaining field
abstracts one `re.findall` family from scraper_agent.py: the field
returns exactly the match list (or, for the pattern tables iterated in
a loop, one match list per pattern in table order) that the Python
regular expression would produce on the given haystack. -/
structure Oracles where
  /-- `scrape_page` -/
  fetch : String → FetchOpts → FetchResult
  /-- anchor regex in `_find_links_on_homepage` (line 244): pairs
  `(href, text)`. -/
  anchorMatches : String → List (String × String)
  /-- LinkedIn href regex (line 746). -/
  linkedinMatches : String → List String
  /-- first name/title pattern, `"Name, Title"` (line 766): pairs
  `(group1, group2)`. -/
  nameTitleMatches1 : String → List (String × String)
  /-- second name/title pattern, `"Title: Name"` (line 768). -/
  nameTitleMatches2 : String → List (String × String)
  /-- email regex (line 821). -/
  emailMatches : String → List String
  /-- the four `job_patterns` title regexes (lines 550-559): one match
  list per pattern. -/
  jobPatternMatches : String → List (List String)
  /-- the ten `job_url_patterns` href regexes (lines 593-612): one
  match list per pattern. -/
  jobUrlPatternMatches : String → List (List String)
  /-- static-asset filter regex `\.(js|css|png|jpg|svg|woff|ico)(\?|$)`
  (line 618). -/
  staticAsset : String → Bool
  /-- the seven `json_url_patterns` regexes (lines 629-639): one match
  list per pattern. -/
  jsonUrlPatternMatches : String → List (List String)
  /-- the four `job_title_html_patterns` regexes (lines 689-694): one
  match list per pattern. -/
  htmlTitlePatternMatches : String → List (List String)

/-! ### Pattern tables (class constants of `ScraperAgent`) -/

/-- `ScraperAgent.SUBDOMAIN_PATTERNS` (lines 30-35); `none` models a
page type that is not a key of the dict. -/
def subdomainPatternsOf : String → Option (List String)
  | "careers" => some ["careers", "jobs", "join", "recruiting", "work"]
  | "about" => some ["about", "company", "corporate"]
  | "news" => some ["news", "blog", "press", "media", "newsroom"]
  | "team" => some ["team", "leadership", "people"]
  | _ => none

/-- `ScraperAgent.PATH_PATTERNS` (lines 38-93). -/
def pathPatternsOf : String → Option (List String)
  | "about" => some
    ["/about", "/about-us", "/company", "/who-we-are", "/our-story",
     "/about/overview", "/en/about", "/en-us/about", "/us/en/about"]
  | "careers" => some
    ["/careers", "/careers/", "/careers/search", "/careers/search/",
     "/careers/jobs", "/careers/openings", "/jobs", "/jobs/",
     "/jobs/search", "/join-us", "/join", "/work-with-us",
     "/opportunities", "/working-here", "/careers/home", "/en/careers",
     "/en-us/careers", "/us/en/careers", "/about/careers",
     "/company/careers", "/open-positions", "/vacancies"]
  | "news" => some
    ["/news", "/blog", "/press", "/newsroom", "/media", "/stories",
     "/insights", "/en/news", "/en-us/news"]
  | "team" => some
    ["/team", "/leadership", "/our-team", "/people", "/about/leadership",
     "/company/leadership"]
  | _ => none

/-- Keyword table of `_find_links_on_homepage` (lines 232-237). -/
def homepageKeywordsOf : String → Option (List String)
  | "careers" => some ["career", "job", "join", "work with us", "opportunities"]
  | "about" => some ["about", "company", "who we are", "our story"]
  | "news" => some ["news", "blog", "press", "media", "newsroom"]
  | "team" => some ["team", "leadership", "people", "our team"]
  | _ => none

/-- First entry of `ScraperAgent.JOB_LISTING_SELECTORS` (line 97),
the only one the code ever uses. -/
def jobListingSelector0 : String :=
  "[data-testid*=\"job\"]"

/-- `ScraperAgent.RELEVANT_TITLES['high']` (lines 111-115). -/
def relevantTitlesHigh : List String :=
  ["recruiter", "recruiting", "talent acquisition", "talent partner",
   "hiring manager", "hr manager", "human resources", "people operations",
   "technical recruiter", "engineering recruiter", "university recruiter"]

/-- `ScraperAgent.RELEVANT_TITLES['medium']` (lines 116-121). -/
def relevantTitlesMedium : List String :=
  ["engineering manager", "eng manager", "director of engineering",
   "vp of engineering", "head of engineering", "tech lead",
   "software manager", "development manager", "team lead",
   "cto", "chief technology officer", "vp engineering"]

/-- `ScraperAgent.RELEVANT_TITLES['low']` (lines 122-125). -/
def relevantTitlesLow : List String :=
  ["ceo", "founder", "co-founder", "president", "coo",
   "director", "vice president", "vp", "head of"]

/-- All values of `RELEVANT_TITLES`, in dict order, as iterated by the
`is_part1_title` check (lines 779-783). -/
def relevantTitlesAll : List String :=
  relevantTitlesHigh ++ relevantTitlesMedium ++ relevantTitlesLow

/-- `job_title_indicators` (lines 795-799). -/
def jobTitleIndicators : List String :=
  ["engineer", "developer", "manager", "director", "lead", "senior",
   "junior", "staff", "principal", "operations", "safety", "data",
   "platform", "autonomy", "embedded", "software", "hardware",
   "recruiting", "time", "systems", "technical"]

/-- Generic mailbox substrings skipped by the email strategy (line 827). -/
def genericEmailParts : List String :=
  ["info@", "contact@", "support@", "hello@", "sales@", "noreply@"]

/-- Keywords of the slug-synthesis step of `extract_job_listings`
(line 665). -/
def urlJobKeywords : List String :=
  ["engineer", "developer", "manager", "designer", "analyst", "scientist"]

/-- Job keywords of the HTML-structure title strategy (line 703). -/
def htmlTitleJobKeywords : List String :=
  ["engineer", "developer", "manager", "designer", "lead", "analyst",
   "scientist", "architect", "director"]

/-! ### Page resolution cascade -/

/-- `ScraperAgent._try_subdomain_patterns` (lines 164-183): fetch
`https://{label}.{baseDomain}` for each label until `fetchOk`; every
fetch is a plain `scrape_page(url)` call.  Also returns the fetch
calls performed, in order. -/
def trySubdomainGo (o : Oracles) (base_domain : String) :
    List String → Option FetchResult × List FetchCall
  | [] => (none, [])
  | label :: rest =>
    let url := "https://" ++ label ++ "." ++ base_domain
    let r := o.fetch url defaultOpts
    if fetchOk r then (some r, [⟨url, defaultOpts⟩])
    else ((trySubdomainGo o base_domain rest).1,
          ⟨url, defaultOpts⟩ :: (trySubdomainGo o base_domain rest).2)

/-- `ScraperAgent._try_subdomain_patterns`, outer dispatch on the
pattern table (lines 172-175). -/
def try_subdomain_patterns (o : Oracles) (base_domain page_type : String) :
    Option FetchResult × List FetchCall :=
  match subdomainPatternsOf page_type with
  | none => (none, [])
  | some labels => trySubdomainGo o base_domain labels

/-- The options `_try_path_patterns` (lines 185-222) passes for one
candidate URL: `use_js = js_rendering and (page_type == 'careers' or
js_rendering)`, which reduces to `js_rendering` alone. -/
def pathFetchOpts (js_rendering scroll_page : Bool) (js_wait_time : Nat)
    (page_type : String) : FetchOpts :=
  if js_rendering && (page_type == "careers" || js_rendering)
  then ⟨true, scroll_page, js_wait_time, none⟩
  else defaultOpts

/-- The candidate loop of `_try_path_patterns` (lines 202-222): join
each path pattern against the base URL and fetch (with the options of
`pathFetchOpts`) until `fetchOk`. -/
def tryPathGo (o : Oracles) (base_url page_type : String)
    (js_rendering scroll_page : Bool) (js_wait_time : Nat) :
    List String → Option FetchResult × List FetchCall
  | [] => (none, [])
  | pat :: rest =>
    let url := pyUrljoin (base_url ++ "/") (pyLstripChar pat '/')
    let opts := pathFetchOpts js_rendering scroll_page js_wait_time page_type
    let r := o.fetch url opts
    if fetchOk r then (some r, [⟨url, opts⟩])
    else ((tryPathGo o base_url page_type js_rendering scroll_page js_wait_time rest).1,
          ⟨url, opts⟩ ::
            (tryPathGo o base_url page_type js_rendering scroll_page js_wait_time rest).2)

/-- `ScraperAgent._try_path_patterns` (lines 185-222).  The JS
settings come from the engine state set by `scrape_company`
(`_js_rendering`, `_scroll_page`, `_js_wait_time`), passed here
explicitly. -/
def try_path_patterns (o : Oracles) (base_url page_type : String)
    (js_rendering scroll_page : Bool) (js_wait_time : Nat) :
    Option FetchResult × List FetchCall :=
  match pathPatternsOf page_type with
  | none => (none, [])
  | some pats => tryPathGo o base_url page_type js_rendering scroll_page js_wait_time pats

/-- `ScraperAgent._find_links_on_homepage` (lines 224-253): keep the
hrefs of the first three anchors whose text contains a page-type
keyword (case-insensitively: the regex is compiled with `IGNORECASE`
and the text is lowered before the keyword test). -/
def find_links_on_homepage (o : Oracles) (homepage_html page_type : String) :
    List String :=
  match homepageKeywordsOf page_type with
  | none => []
  | some kws =>
    let ms := o.anchorMatches homepage_html
    let found := ms.filterMap fun m =>
      if kws.any (fun kw => pyContains (pyLower m.2) kw) then some m.1 else none
    found.take 3

/-- Strategy 3 of `_scrape_with_fallback` (lines 283-297): fetch each
homepage link (made absolute when relative) with a plain
`scrape_page(url)` call until `fetchOk`. -/
def tryHomepageGo (o : Oracles) (company_url : String) :
    List String → Option FetchResult × List FetchCall
  | [] => (none, [])
  | link :: rest =>
    let url := if pyStartsWith link "http" then link
               else pyUrljoin (company_url ++ "/") (pyLstripChar link '/')
    let r := o.fetch url defaultOpts
    if fetchOk r then (some r, [⟨url, defaultOpts⟩])
    else ((tryHomepageGo o company_url rest).1,
          ⟨url, defaultOpts⟩ :: (tryHomepageGo o company_url rest).2)

/-- Strategy 3 entry: the links found on the homepage, fetched in
order. -/
def try_homepage_links (o : Oracles) (company_url page_type homepage_html : String) :
    Option FetchResult × List FetchCall :=
  tryHomepageGo o company_url (find_links_on_homepage o homepage_html page_type)

/-- `ScraperAgent._scrape_with_fallback` (lines 255-300): subdomain
patterns, then path patterns, then homepage links (the last only when
`homepage_html` is truthy). -/
def scrape_with_fallback (o : Oracles) (company_url base_domain page_type : String)
    (homepage_html : Option String)
    (js_rendering scroll_page : Bool) (js_wait_time : Nat) :
    Option FetchResult × List FetchCall :=
  let s1 := try_subdomain_patterns o base_domain page_type
  match s1.1 with
  | some r => (some r, s1.2)
  | none =>
    let s2 := try_path_patterns o company_url page_type
                js_rendering scroll_page js_wait_time
    match s2.1 with
    | some r => (some r, s1.2 ++ s2.2)
    | none =>
      match homepage_html with
      | some hh =>
        if !hh.isEmpty then
          let s3 := try_homepage_links o company_url page_type hh
          (s3.1, s1.2 ++ s2.2 ++ s3.2)
        else (none, s1.2 ++ s2.2)
      | none => (none, s1.2 ++ s2.2)

/-! ### Data model of the extraction results -/

/-- `ExtractedContact` dataclass (scraper_agent.py lines 13-21);
scores are exact decimal sums, modelled in `ℚ`. -/
structure ExtractedContact where
  name : String
  title : Option String
  email : Option String
  linkedin_url : Option String
  source_page : String
  relevance_score : ℚ
deriving DecidableEq, Repr

/-- One entry of the job list built by `extract_job_listings`
(dict with keys `title`, `match_score`, `url`). -/
structure JobListing where
  title : String
  match_score : ℚ
  url : Option String
deriving DecidableEq, Repr

/-- Python exceptions the engine can raise. -/
inductive PyError where
  /-- `ZeroDivisionError` from the success-rate computation. -/
  | zeroDivision
  /-- `UnboundLocalError` from reading the stale `url` variable in
  `extract_job_listings` when no href URL was ever iterated. -/
  | unboundLocalUrl
deriving DecidableEq, Repr

/-! ### Contact extraction (`extract_contacts_from_text`,
`_calculate_title_relevance`, `extract_contacts_from_company_data`) -/

/-- `ScraperAgent._calculate_title_relevance` (lines 859-875). -/
def calculate_title_relevance (title : String) : ℚ :=
  let tl := pyLower title
  if relevantTitlesHigh.any (fun k => pyContains tl k) then 0.9
  else if relevantTitlesMedium.any (fun k => pyContains tl k) then 0.7
  else if relevantTitlesLow.any (fun k => pyContains tl k) then 0.5
  else 0.3

/-- Running state of `extract_contacts_from_text`: the `contacts`
list and the `seen_names` set (in insertion order; membership is
exact-string as in the source). -/
structure ContactScanState where
  contacts : List ExtractedContact
  seen : List String
deriving Repr

/-- Strategy 1 of `extract_contacts_from_text` (lines 744-761), one
LinkedIn URL: derive a name from the trailing `/in/` segment and add a
contact at relevance 0.3 when the name is nonempty, longer than two
characters and unseen. -/
def contactsLinkedinStep (source_page : String) (st : ContactScanState)
    (url : String) : ContactScanState :=
  let namePart := pyRstripChar ((pySplitOn url "/in/").getLastD "") '/'
  let nameClean := pyTitle (pyReplace (pyReplace namePart "-" " ") "_" " ")
  if !nameClean.isEmpty && decide (2 < nameClean.length) && !st.seen.contains nameClean then
    ⟨st.contacts ++ [⟨nameClean, none, none, some url, source_page, 0.3⟩],
     st.seen ++ [nameClean]⟩
  else st

/-- Strategy 2 of `extract_contacts_from_text` (lines 763-818), one
regex match `(part1, part2)`: decide which part is the title, then
apply the name-validity filter (2-4 whitespace tokens, unseen, no
job-title indicator substring, no digit or `/`, `#`, `@` character)
and add a contact scored by the title-relevance table. -/
def contactsNameTitleStep (source_page : String) (st : ContactScanState)
    (m : String × String) : ContactScanState :=
  let part1 := pyStrip m.1
  let part2 := pyStrip m.2
  let isPart1Title :=
    relevantTitlesAll.any fun w => pyContains (pyLower part1) (pyLower w)
  let name := if isPart1Title then part2 else part1
  let title := if isPart1Title then part1 else part2
  let nameWords := pySplitWs name
  let isLikelyJobTitle :=
    jobTitleIndicators.any fun ind => pyContains (pyLower name) ind
  let hasWeirdChars :=
    name.data.any fun ch => ch.isDigit || ch == '/' || ch == '#' || ch == '@'
  if 2 ≤ nameWords.length && nameWords.length ≤ 4 && !st.seen.contains name
     && !isLikelyJobTitle && !hasWeirdChars then
    ⟨st.contacts ++
      [⟨name, some title, none, none, source_page, calculate_title_relevance title⟩],
     st.seen ++ [name]⟩
  else st

/-- The email-attachment loop of strategy 3 (lines 845-852): give the
email to the first contact that has no email yet and whose
space-stripped lowercase name is a substring of the email (or whose
name contains the local part), boosting that contact by +0.2. -/
def attachEmailToContacts (email : String) :
    List ExtractedContact → List ExtractedContact
  | [] => []
  | c :: rest =>
    if c.email == none then
      let nameLower := pyReplace (pyLower c.name) " " ""
      if pyContains (pyLower email) nameLower ||
         pyContains nameLower (pyLower ((pySplitOn email "@").headD "")) then
        { c with email := some email, relevance_score := c.relevance_score + 0.2 } :: rest
      else c :: attachEmailToContacts email rest
    else c :: attachEmailToContacts email rest

/-- Strategy 3 of `extract_contacts_from_text` (lines 820-852), one
email: skip generic mailboxes; if the local part contains a dot,
create a fresh contact named from its first two segments at relevance
0.4; otherwise try to attach the email to an existing contact. -/
def contactsEmailStep (source_page : String) (st : ContactScanState)
    (email : String) : ContactScanState :=
  if genericEmailParts.any (fun g => pyContains (pyLower email) g) then st
  else
    let localPart := (pySplitOn email "@").headD ""
    if pyContains localPart "." then
      let nameGuess := pyJoin " " (((pySplitOn localPart ".").take 2).map pyTitle)
      if !st.seen.contains nameGuess then
        ⟨st.contacts ++ [⟨nameGuess, none, some email, none, source_page, 0.4⟩],
         st.seen ++ [nameGuess]⟩
      else st
    else ⟨attachEmailToContacts email st.contacts, st.seen⟩

/-- Insert `x` into a sorted list, before the first element `y` with
`le x y`; elements kept in front satisfy `¬ le x y`. -/
def insertStable {α : Type} (le : α → α → Bool) (x : α) : List α → List α
  | [] => [x]
  | y :: ys => if le x y then x :: y :: ys else y :: insertStable le x ys

/-- Stable sort by the (total, transitive) comparison `le`, by
right-to-left insertion: on ties the original order is kept.  For a
total preorder this computes exactly what CPython's stable
`list.sort` computes, and unlike `List.mergeSort` it is structurally
recursive, so concrete runs reduce inside the kernel. -/
def insertionSortBy {α : Type} (le : α → α → Bool) : List α → List α
  | [] => []
  | x :: xs => insertStable le x (insertionSortBy le xs)

/-- Comparison used for `contacts.sort(key=..., reverse=True)`:
descending relevance, stable on ties (as in CPython). -/
def contactScoreDescB (a b : ExtractedContact) : Bool :=
  decide (b.relevance_score ≤ a.relevance_score)

/-- `ScraperAgent.extract_contacts_from_text` (lines 726-857): the
three strategies in order, then a stable descending sort by relevance
and a cap at 15.  The regex matches are supplied by the oracles. -/
def extract_contacts_from_text (o : Oracles) (text : String)
    (html : Option String) (source_page : String) : List ExtractedContact :=
  let st0 : ContactScanState := ⟨[], []⟩
  let st1 :=
    match html with
    | some h =>
      if !h.isEmpty then
        ((o.linkedinMatches h).take 10).foldl (contactsLinkedinStep source_page) st0
      else st0
    | none => st0
  let st2 := (o.nameTitleMatches1 text ++ o.nameTitleMatches2 text).foldl
               (contactsNameTitleStep source_page) st1
  let st3 := ((o.emailMatches text).take 10).foldl (contactsEmailStep source_page) st2
  (insertionSortBy contactScoreDescB st3.contacts).take 15

/-- `page_priority` of `extract_contacts_from_company_data` (line 891). -/
def pagePriority : List String :=
  ["team", "about", "careers", "news"]

/-- The data of a page stored in `result['pages']` (lines 393-400):
the keys the extractors later read. -/
structure PageRecord where
  url : String
  title : String
  text : String
  html : String
  text_length : Nat
  scraped_at : String
deriving DecidableEq, Repr

/-- The page-aggregation loop of `extract_contacts_from_company_data`
(lines 888-905): pool the per-page extraction results over the pages
present, in priority order, skipping pages with empty text. -/
def pooledContacts (o : Oracles) (pages : List (String × PageRecord)) :
    List ExtractedContact :=
  pagePriority.foldl
    (fun acc pt =>
      match pages.lookup pt with
      | some pr =>
        if !pr.text.isEmpty then
          acc ++ extract_contacts_from_text o pr.text (some pr.html) pt
        else acc
      | none => acc)
    []

/-- The case-insensitive name dedup of
`extract_contacts_from_company_data` (lines 907-913): first
occurrence wins. -/
def dedupByName : List ExtractedContact → List String → List ExtractedContact
  | [], _ => []
  | c :: rest, seen =>
    if seen.contains (pyLower c.name) then dedupByName rest seen
    else c :: dedupByName rest (seen ++ [pyLower c.name])

/-- The target-role boost (lines 915-926): +0.2 when the lowered
title contains a role keyword, +0.1 more when it contains a
management word; only contacts with a truthy title are touched. -/
def boostContact (roleKeywords : List String) (c : ExtractedContact) :
    ExtractedContact :=
  match c.title with
  | some t =>
    if !t.isEmpty then
      let tl := pyLower t
      let s1 := if roleKeywords.any (fun kw => pyContains tl kw)
                then c.relevance_score + 0.2 else c.relevance_score
      let s2 := if ["manager", "lead", "director", "head"].any (fun m => pyContains tl m)
                then s1 + 0.1 else s1
      { c with relevance_score := s2 }
    else c
  | none => c

/-- `ScraperAgent.extract_contacts_from_company_data` (lines 877-931):
pool, dedup case-insensitively, boost against the target role when one
is supplied, re-sort descending, cap at 10. -/
def extract_contacts_from_company_data (o : Oracles)
    (pages : List (String × PageRecord)) (target_role : Option String) :
    List ExtractedContact :=
  let uniq := dedupByName (pooledContacts o pages) []
  let boosted :=
    match target_role with
    | some r =>
      if !r.isEmpty then uniq.map (boostContact (pySplitWs (pyLower r))) else uniq
    | none => uniq
  (insertionSortBy contactScoreDescB boosted).take 10

/-! ### Job-listing extraction (`extract_job_listings`) -/

/-- The match-score formula (lines 574-580): with a truthy target
role, the set overlap of whitespace tokens divided by the number of
distinct target tokens; 0 otherwise. -/
def jobMatchScore (target_role : Option String) (titleLower : String) : ℚ :=
  match target_role with
  | some r =>
    if !r.isEmpty then
      let targetWords := (pySplitWs (pyLower r)).dedup
      let titleWords := (pySplitWs titleLower).dedup
      let overlap := targetWords.filter (fun w => titleWords.contains w)
      if !overlap.isEmpty then (overlap.length : ℚ) / (targetWords.length : ℚ)
      else 0
    else 0
  | none => 0

/-- Running state of `extract_job_listings`: the `jobs` list, the
`seen_titles` set and the `found_urls` set (insertion order). -/
structure JobScanState where
  jobs : List JobListing
  seen : List String
  found : List String
deriving Repr

/-- The text-pattern title loop of `extract_job_listings` (lines
561-586), one regex match: strip, dedup case-insensitively, discard
titles shorter than 5 characters, score against the target role. -/
def jobTitleStep (target_role : Option String) (st : JobScanState)
    (m : String) : JobScanState :=
  let title := pyStrip m
  let tl := pyLower title
  if st.seen.contains tl || decide (title.length < 5) then st
  else
    { st with jobs := st.jobs ++ [⟨title, jobMatchScore target_role tl, none⟩],
              seen := st.seen ++ [tl] }

/-- The href-URL collection loop (lines 614-626): per pattern, filter
static assets, take 30, accumulate into the `found_urls` set.  Returns
the set and the value the Python loop variable `url` holds afterwards:
the last URL iterated (it is read later by the stale-variable code, and
is unbound when every pattern produced an empty list). -/
def hrefUrlScan (o : Oracles) (h : String) : List String × Option String :=
  (o.jobUrlPatternMatches h).foldl
    (fun (st : List String × Option String) l =>
      let f := (l.filter (fun u => !o.staticAsset u)).take 30
      let found := f.foldl (fun acc u => if acc.contains u then acc else acc ++ [u]) st.1
      (found, match f.getLast? with | some u => some u | none => st.2))
    ([], none)

/-- The title-attachment loop (lines 654-661): walk the jobs, and at
the first job whose first two long-enough title words overlap the URL
slug, set its URL (when still unset) and stop. -/
def attachUrlToJobs (url urlParts : String) :
    List JobListing → List JobListing × Bool
  | [] => ([], false)
  | j :: rest =>
    let jobWords := (pySplitWs (pyLower j.title)).take 2
    if jobWords.any (fun w => decide (3 < w.length) && pyContains urlParts w) then
      ((if j.url == none then { j with url := some url } else j) :: rest, true)
    else
      (j :: (attachUrlToJobs url urlParts rest).1,
       (attachUrlToJobs url urlParts rest).2)

/-- One iteration of the `json_url_patterns` loop (lines 641-678).
When the pattern produced matches, the code adds them to `found_urls`
and then — because of the indentation of lines 650-678 — runs the
URL-to-title attachment code once, on the stale loop variable `url`
left over from the href loop (an `UnboundLocalError` when that loop
never ran), not on each found URL. -/
def jsonPatternStep (lastHrefUrl : Option String) (st : JobScanState)
    (ml : List String) : Except PyError JobScanState :=
  if ml.isEmpty then .ok st
  else
    let found := (ml.take 10).foldl
      (fun acc m => if acc.contains m then acc else acc ++ [m]) st.found
    match lastHrefUrl with
    | none => .error .unboundLocalUrl
    | some url =>
      let urlParts :=
        pyReplace (pyReplace (pyReplace (pyLower url) "-" " ") "_" " ") "/" " "
      let jobs2 := (attachUrlToJobs url urlParts st.jobs).1
      if (attachUrlToJobs url urlParts st.jobs).2 then .ok ⟨jobs2, st.seen, found⟩
      else
        match urlJobKeywords.find? (fun kw => pyContains urlParts kw) with
        | some _ =>
          let pathParts :=
            pyReplace (pyReplace ((pySplitOn url "/").getLastD "") "-" " ") "_" " "
          if decide (5 < pathParts.length) && !st.seen.contains (pyLower pathParts) then
            let potentialTitle := pyTitle pathParts
            if potentialTitle.length < 60 then
              .ok ⟨jobs2 ++ [⟨potentialTitle, 0, some url⟩],
                   st.seen ++ [pyLower pathParts], found⟩
            else .ok ⟨jobs2, st.seen, found⟩
          else .ok ⟨jobs2, st.seen, found⟩
        | none => .ok ⟨jobs2, st.seen, found⟩

/-- The HTML-structure title loop (lines 688-710), one regex match:
titles of length in (5, 80) containing a job keyword, deduplicated. -/
def htmlTitleStep (st : JobScanState) (m : String) : JobScanState :=
  let title := pyStrip m
  let tl := pyLower title
  if decide (5 < title.length) && decide (title.length < 80) && !st.seen.contains tl then
    if htmlTitleJobKeywords.any (fun kw => pyContains tl kw) then
      { st with jobs := st.jobs ++ [⟨title, 0, none⟩], seen := st.seen ++ [tl] }
    else st
  else st

/-- Comparison used for `jobs.sort(key=..., reverse=True)`. -/
def jobScoreDescB (a b : JobListing) : Bool :=
  decide (b.match_score ≤ a.match_score)

/-- `ScraperAgent.extract_job_listings` (lines 534-724): text-pattern
titles, then (when HTML is truthy) the href-URL collection, the
`json_url_patterns` loop carrying the stale-variable bug, and the
HTML-structure titles; finally a stable descending sort by match score
capped at 20. -/
def extract_job_listings (o : Oracles) (text : String) (html : Option String)
    (target_role : Option String) : Except PyError (List JobListing) := do
  let st1 := (o.jobPatternMatches text).flatten.foldl (jobTitleStep target_role)
               ⟨[], [], []⟩
  let stFinal ←
    match html with
    | some h =>
      if !h.isEmpty then do
        let (found0, lastUrl) := hrefUrlScan o h
        let st2 ← (o.jsonUrlPatternMatches h).foldlM (jsonPatternStep lastUrl)
                    { st1 with found := found0 }
        pure (((o.htmlTitlePatternMatches h).map (List.take 20)).flatten.foldl
                htmlTitleStep st2)
      else pure st1
    | none => pure st1
  pure ((insertionSortBy jobScoreDescB stFinal.jobs).take 20)

/-! ### The orchestrator (`scrape_company`) -/

/-- The `metadata` dict of the profile (lines 433-440).  The
success-rate string formatting is modelled by the exact rational it
formats; computing it divides by the number of requested page types. -/
structure ScrapeMetadata where
  total_pages_attempted : Nat
  successful_pages : Nat
  failed_pages_count : Nat
  success_rate : ℚ
  manual_urls_used : Nat
  all_manual : Bool
deriving DecidableEq, Repr

/-- The result dict of `scrape_company` (lines 329-337 and 442-504).
The wall-clock `scraped_at` entry is omitted. -/
structure CompanyProfile where
  company_url : String
  company_name : String
  pages : List (String × PageRecord)
  success_count : Nat
  failed_pages : List String
  metadata : ScrapeMetadata
  extracted_contacts : List ExtractedContact
  extracted_jobs : List JobListing
deriving DecidableEq, Repr

/-- Truthiness of an optional string (Python: `None` and the empty
string are falsy). -/
def strTruthy : Option String → Bool
  | some s => !s.isEmpty
  | none => false

/-- The guard `manual_urls and page_type in manual_urls` (line 373):
the manual URL for a page type, available only when the mapping is
truthy and has the key. -/
def manualLookup (m : Option (List (String × String))) (pt : String) :
    Option String :=
  match m with
  | some l => if l.isEmpty then none else l.lookup pt
  | none => none

/-- `all_manual` (lines 344-346): the mapping is truthy and every
requested page type is one of its keys. -/
def allManualB (m : Option (List (String × String))) (pts : List String) : Bool :=
  match m with
  | some l => !l.isEmpty && pts.all (fun pt => (l.lookup pt).isSome)
  | none => false

/-- The options of the manual-URL fetch (lines 377-390):
`use_js = js_rendering and (page_type == 'careers' or js_rendering)`,
scroll/extra-wait only under `use_js`, and the first job-listing
selector for careers pages under `use_js`. -/
def manualFetchOpts (js_rendering scroll_page : Bool) (js_wait_time : Nat)
    (page_type : String) : FetchOpts :=
  let use_js := js_rendering && (page_type == "careers" || js_rendering)
  ⟨use_js,
   if use_js then scroll_page else false,
   if use_js then js_wait_time else 0,
   if use_js && page_type == "careers" then some jobListingSelector0 else none⟩

/-- The page record stored on success (lines 393-400 / 418-425). -/
def mkPageRecord (r : FetchResult) : PageRecord :=
  ⟨r.url, r.title, r.text.getD "", r.html.getD "", (r.text.getD "").length,
   r.scraped_at⟩

/-- Running state of the per-page-type loop of `scrape_company`
(lines 371-431), plus the trace of fetcher invocations. -/
structure ScrapeLoopState where
  pages : List (String × PageRecord)
  success_count : Nat
  failed_pages : List String
  calls : List FetchCall
deriving Repr

/-- One iteration of the page loop (lines 371-431): the manual branch
when a manual URL is available, otherwise auto-discovery via
`_scrape_with_fallback` (guarded by `homepage_html or not all_manual`),
otherwise the page type is marked failed. -/
def scrapePageStep (o : Oracles) (company_url base_domain : String)
    (manual_urls : Option (List (String × String)))
    (homepage_html : Option String) (all_manual : Bool)
    (js_rendering scroll_page : Bool) (js_wait_time : Nat)
    (st : ScrapeLoopState) (page_type : String) : ScrapeLoopState :=
  match manualLookup manual_urls page_type with
  | some murl =>
    let opts := manualFetchOpts js_rendering scroll_page js_wait_time page_type
    let r := o.fetch murl opts
    if fetchOk r then
      { st with pages := st.pages ++ [(page_type, mkPageRecord r)],
                success_count := st.success_count + 1,
                calls := st.calls ++ [⟨murl, opts⟩] }
    else
      { st with failed_pages := st.failed_pages ++ [page_type],
                calls := st.calls ++ [⟨murl, opts⟩] }
  | none =>
    if strTruthy homepage_html || !all_manual then
      let sres := scrape_with_fallback o company_url base_domain page_type
                    homepage_html js_rendering scroll_page js_wait_time
      match sres.1 with
      | some r =>
        { st with pages := st.pages ++ [(page_type, mkPageRecord r)],
                  success_count := st.success_count + 1,
                  calls := st.calls ++ sres.2 }
      | none =>
        { st with failed_pages := st.failed_pages ++ [page_type],
                  calls := st.calls ++ sres.2 }
    else
      { st with failed_pages := st.failed_pages ++ [page_type] }

/-- The default page-type list (lines 326-327). -/
def defaultPageTypes : List String :=
  ["about", "careers", "news", "team"]

/-- `ScraperAgent.scrape_company` (lines 302-504): normalise the URL,
fetch the homepage unless every requested page type has a manual
override, resolve each page type, build the metadata (dividing by the
number of requested page types), then run contact and job extraction.
Returns the profile (or the Python exception) together with the
ordered trace of fetcher invocations. -/
def scrape_company (o : Oracles) (company_url : String)
    (pages_to_scrape : Option (List String))
    (manual_urls : Option (List (String × String)))
    (js_rendering scroll_page : Bool) (js_wait_time : Nat) :
    Except PyError CompanyProfile × List FetchCall :=
  let curl := normalize_url company_url
  let base := get_base_domain curl
  let pts := pages_to_scrape.getD defaultPageTypes
  let allMan := allManualB manual_urls pts
  let homepage_html : Option String :=
    if !allMan then
      (if (o.fetch curl defaultOpts).success
       then some ((o.fetch curl defaultOpts).html.getD "") else none)
    else none
  let calls0 : List FetchCall :=
    if !allMan then [⟨curl, defaultOpts⟩] else []
  let st := pts.foldl
    (scrapePageStep o curl base manual_urls homepage_html allMan
      js_rendering scroll_page js_wait_time)
    ⟨[], 0, [], calls0⟩
  let profileE : Except PyError CompanyProfile :=
    if pts.length == 0 then .error .zeroDivision
    else
      let md : ScrapeMetadata :=
        ⟨pts.length, st.success_count, st.failed_pages.length,
         ((st.success_count : ℚ) / (pts.length : ℚ)) * 100,
         (match manual_urls with | some l => l.length | none => 0),
         allMan⟩
      let contacts := extract_contacts_from_company_data o st.pages none
      let jobsE : Except PyError (List JobListing) :=
        match st.pages.lookup "careers" with
        | some pr => extract_job_listings o pr.text (some pr.html) none
        | none => .ok []
      match jobsE with
      | .error e => .error e
      | .ok jobs =>
        .ok ⟨curl, extract_company_name curl, st.pages, st.success_count,
             st.failed_pages, md, contacts, jobs⟩
  (profileE, st.calls)

/-! ### Concrete oracles for concrete runs -/

/-- A fetch result with `success = False` (transport failure). -/
def failResult (u : String) : FetchResult :=
  ⟨u, "", none, none, "", false⟩

/-- Oracle under which every fetch fails and every regex finds
nothing. -/
def noMatchOracles : Oracles where
  fetch := fun u _ => failResult u
  anchorMatches := fun _ => []
  linkedinMatches := fun _ => []
  nameTitleMatches1 := fun _ => []
  nameTitleMatches2 := fun _ => []
  emailMatches := fun _ => []
  jobPatternMatches := fun _ => []
  jobUrlPatternMatches := fun _ => []
  staticAsset := fun _ => false
  jsonUrlPatternMatches := fun _ => []
  htmlTitlePatternMatches := fun _ => []

/-- A 201-character text, just above the minimum content threshold. -/
def longText : String :=
  ⟨List.replicate 201 'a'⟩

/-- A fetch result that succeeds with 201 characters of text. -/
def okResult (u : String) : FetchResult :=
  ⟨u, "T", some longText, some "", "now", true⟩

/-- Oracle under which every fetch succeeds with substantial text and
every regex finds nothing. -/
def okFetchOracles : Oracles :=
  { noMatchOracles with fetch := fun u _ => okResult u }

/-! ### Helper lemmas about the cascade -/

/-- A fetch that passes the shared success test has extracted text
longer than 200 characters. -/
theorem fetchOk_text_length {r : FetchResult} (h : fetchOk r = true) :
    200 < (r.text.getD "").length := by
  cases hr : r.text with
  | none => simp [fetchOk, hr] at h
  | some t => simp [fetchOk, hr] at h; simpa using h.2.2

/-- The subdomain loop only returns results passing the success test. -/
theorem trySubdomainGo_some (o : Oracles) (bd : String) :
    ∀ ls r, (trySubdomainGo o bd ls).1 = some r → fetchOk r = true := by
  intro ls
  induction ls with
  | nil => intro r h; simp [trySubdomainGo] at h
  | cons l rest ih =>
    intro r h
    simp only [trySubdomainGo] at h
    split at h
    · next hf => simp at h; exact h ▸ hf
    · exact ih r h

/-- The path loop only returns results passing the success test. -/
theorem tryPathGo_some (o : Oracles) (bu pt : String) (js sc : Bool) (w : Nat) :
    ∀ ls r, (tryPathGo o bu pt js sc w ls).1 = some r → fetchOk r = true := by
  intro ls
  induction ls with
  | nil => intro r h; simp [tryPathGo] at h
  | cons l rest ih =>
    intro r h
    simp only [tryPathGo] at h
    split at h
    · next hf => simp at h; exact h ▸ hf
    · exact ih r h

/-- The homepage-link loop only returns results passing the success
test. -/
theorem tryHomepageGo_some (o : Oracles) (cu : String) :
    ∀ ls r, (tryHomepageGo o cu ls).1 = some r → fetchOk r = true := by
  intro ls
  induction ls with
  | nil => intro r h; simp [tryHomepageGo] at h
  | cons l rest ih =>
    intro r h
    simp only [tryHomepageGo] at h
    generalize (if pyStartsWith l "http" = true then l
                else pyUrljoin (cu ++ "/") (pyLstripChar l '/')) = u at h
    split at h
    · next hf => simp at h; exact h ▸ hf
    · exact ih r h

/-- Strategy 1 only succeeds with a result passing the success test. -/
theorem try_subdomain_patterns_some (o : Oracles) (bd pt : String) (r : FetchResult)
    (h : (try_subdomain_patterns o bd pt).1 = some r) : fetchOk r = true := by
  unfold try_subdomain_patterns at h
  split at h
  · simp at h
  · exact trySubdomainGo_some o bd _ r h

/-- Strategy 2 only succeeds with a result passing the success test. -/
theorem try_path_patterns_some (o : Oracles) (bu pt : String) (js sc : Bool) (w : Nat)
    (r : FetchResult)
    (h : (try_path_patterns o bu pt js sc w).1 = some r) : fetchOk r = true := by
  unfold try_path_patterns at h
  split at h
  · simp at h
  · exact tryPathGo_some o bu pt js sc w _ r h

/-- Strategy 3 only succeeds with a result passing the success test. -/
theorem try_homepage_links_some (o : Oracles) (cu pt hh : String) (r : FetchResult)
    (h : (try_homepage_links o cu pt hh).1 = some r) : fetchOk r = true :=
  tryHomepageGo_some o cu _ r h

/-- Any page `\_scrape_with_fallback` resolves passed the success
test, in particular its text is longer than 200 characters. -/
theorem scrape_with_fallback_some (o : Oracles) (cu bd pt : String)
    (hh : Option String) (js sc : Bool) (w : Nat) (r : FetchResult)
    (h : (scrape_with_fallback o cu bd pt hh js sc w).1 = some r) :
    fetchOk r = true := by
  rcases h1 : (try_subdomain_patterns o bd pt).1 with _ | r1
  · rcases h2 : (try_path_patterns o cu pt js sc w).1 with _ | r2
    · cases hh with
      | none => simp [scrape_with_fallback, h1, h2] at h
      | some s =>
        by_cases hs : s.isEmpty
        · simp [scrape_with_fallback, h1, h2, hs] at h
        · simp only [scrape_with_fallback, h1, h2] at h
          rw [if_pos (by simpa using hs)] at h
          exact try_homepage_links_some o cu pt s r h
    · simp [scrape_with_fallback, h1, h2] at h
      exact h ▸ try_path_patterns_some o cu pt js sc w r2 h2
  · simp [scrape_with_fallback, h1] at h
    exact h ▸ try_subdomain_patterns_some o bd pt r1 h1

/-! ### Helper lemmas about the page loop of `scrape_company` -/

/-- Every page-loop iteration only appends to the call trace. -/
theorem scrapePageStep_calls_prefix (o : Oracles) (cu bd : String)
    (man : Option (List (String × String))) (hh : Option String) (am js sc : Bool)
    (w : Nat) (st : ScrapeLoopState) (pt : String) :
    ∃ cs, (scrapePageStep o cu bd man hh am js sc w st pt).calls = st.calls ++ cs := by
  unfold scrapePageStep
  split
  · next murl heq =>
    refine ⟨[⟨murl, manualFetchOpts js sc w pt⟩], ?_⟩
    dsimp only
    split <;> rfl
  · split
    · refine ⟨(scrape_with_fallback o cu bd pt hh js sc w).2, ?_⟩
      dsimp only
      split <;> rfl
    · exact ⟨[], by simp⟩

/-- The page loop only appends to the call trace. -/
theorem scrapeLoop_calls_prefix (o : Oracles) (cu bd : String)
    (man : Option (List (String × String))) (hh : Option String) (am js sc : Bool)
    (w : Nat) :
    ∀ (pts : List String) (st : ScrapeLoopState),
      ∃ cs, (pts.foldl (scrapePageStep o cu bd man hh am js sc w) st).calls =
              st.calls ++ cs := by
  intro pts
  induction pts with
  | nil => intro st; exact ⟨[], by simp⟩
  | cons p rest ih =>
    intro st
    obtain ⟨cs1, h1⟩ := scrapePageStep_calls_prefix o cu bd man hh am js sc w st p
    obtain ⟨cs2, h2⟩ := ih (scrapePageStep o cu bd man hh am js sc w st p)
    exact ⟨cs1 ++ cs2, by simp [h2, h1]⟩

/-- Unless every requested page type has a manual override, the first
fetcher call of `scrape_company` is the homepage fetch of the
normalised company URL, with the plain (non-rendering) options. -/
theorem scrape_company_trace_head (o : Oracles) (cu : String)
    (pts? : Option (List String)) (man : Option (List (String × String)))
    (js sc : Bool) (w : Nat)
    (hman : allManualB man (pts?.getD defaultPageTypes) = false) :
    ((scrape_company o cu pts? man js sc w).2).head? =
      some ⟨normalize_url cu, defaultOpts⟩ := by
  simp only [scrape_company, hman, Bool.not_false, if_true]
  obtain ⟨cs, hcs⟩ := scrapeLoop_calls_prefix o (normalize_url cu)
    (get_base_domain (normalize_url cu)) man
    (if (o.fetch (normalize_url cu) defaultOpts).success = true
     then some (((o.fetch (normalize_url cu) defaultOpts).html).getD "") else none)
    false js sc w (pts?.getD defaultPageTypes)
    ⟨[], 0, [], [⟨normalize_url cu, defaultOpts⟩]⟩
  rw [hcs]
  simp

/-- A value found by association-list lookup is among the values. -/
theorem lookup_mem_snd {α β : Type} [BEq α] (l : List (α × β)) (k : α) (v : β)
    (h : l.lookup k = some v) : v ∈ l.map Prod.snd := by
  induction l with
  | nil => simp [List.lookup] at h
  | cons p rest ih =>
    obtain ⟨k0, v0⟩ := p
    simp only [List.lookup] at h
    split at h
    · simp at h; simp [h]
    · simpa using Or.inr (by simpa using ih h)

/-- `all_manual` is true when the mapping is nonempty and covers every
requested page type. -/
theorem allManualB_true (man : List (String × String)) (pts : List String)
    (hne : man ≠ []) (hall : ∀ pt ∈ pts, (man.lookup pt).isSome = true) :
    allManualB (some man) pts = true := by
  unfold allManualB
  rw [Bool.and_eq_true]
  refine ⟨by simp [List.isEmpty_iff, hne], ?_⟩
  rw [List.all_eq_true]
  exact fun pt hpt => hall pt hpt

/-- When the (nonempty) manual mapping covers every page type of the
loop, every call the loop adds to the trace is a manual URL. -/
theorem scrapeLoop_manual_calls (o : Oracles) (cu bd : String)
    (man : List (String × String)) (hh : Option String) (am js sc : Bool) (w : Nat)
    (hne : man ≠ []) :
    ∀ (pts : List String), (∀ pt ∈ pts, (man.lookup pt).isSome = true) →
    ∀ (st : ScrapeLoopState), (∀ c ∈ st.calls, c.url ∈ man.map Prod.snd) →
    ∀ c ∈ (pts.foldl (scrapePageStep o cu bd (some man) hh am js sc w) st).calls,
      c.url ∈ man.map Prod.snd := by
  intro pts
  induction pts with
  | nil => intro _ st hst c hc; exact hst c hc
  | cons p rest ih =>
    intro hall st hst
    simp only [List.foldl_cons]
    apply ih (fun pt hpt => hall pt (List.mem_cons_of_mem _ hpt))
    intro c hc
    obtain ⟨v, hv⟩ := Option.isSome_iff_exists.mp (hall p (List.mem_cons_self p rest))
    have hml : manualLookup (some man) p = some v := by
      simp [manualLookup, List.isEmpty_iff, hne, hv]
    unfold scrapePageStep at hc
    rw [hml] at hc
    dsimp only at hc
    split at hc
    · rcases List.mem_append.mp hc with h1 | h2
      · exact hst c h1
      · simp at h2
        rw [h2]
        exact lookup_mem_snd man p v hv
    · rcases List.mem_append.mp hc with h1 | h2
      · exact hst c h1
      · simp at h2
        rw [h2]
        exact lookup_mem_snd man p v hv

/-! ### Claim C1 -/

/-- Claim C1 counterexample: a `scrape_company` call with the
empty-string company URL is NOT rejected by input validation before
fetching.  The head of the fetcher-call trace is the homepage fetch of
the normalised URL `https:` (so a fetch is attempted), and the call
returns a profile in which every default page type is merely recorded
as failed — no validation error is raised. -/
theorem C1_counterexample :
    (scrape_company noMatchOracles "" none none true true 3000).2.head? =
      some ⟨"https:", defaultOpts⟩ ∧
    (scrape_company noMatchOracles "" none none true true 3000).1.toOption.map
      CompanyProfile.failed_pages = some defaultPageTypes :=
  ⟨rfl, rfl⟩

/-- Claim C1, amended: `scrape_company` performs no input validation:
an empty-string company URL is normalised to `https:` and the homepage
fetch is attempted on it as the very first fetcher call (under every
oracle and every rendering option); with all fetches failing the call
still returns a profile whose page map is empty and whose failed-page
list is the whole default page-type list. -/
theorem C1_theorem :
    (∀ (o : Oracles) (js sc : Bool) (w : Nat),
      ((scrape_company o "" none none js sc w).2).head? =
        some ⟨"https:", defaultOpts⟩) ∧
    (scrape_company noMatchOracles "" none none true true 3000).1.toOption.map
      CompanyProfile.pages = some [] :=
  ⟨fun o js sc w => scrape_company_trace_head o "" none none js sc w rfl, rfl⟩

/-! ### Claim C3 -/

/-- Claim C3 counterexample: with requested page types `[]` and the
empty manual mapping `{}` — under which, vacuously, the manual-URL
mapping contains an entry for every requested page type — the homepage
is still fetched (the `all_manual` test also demands a truthy
mapping), so the fetcher is called on a URL that is not a manual URL,
refuting the claim as stated. -/
theorem C3_counterexample :
    (scrape_company noMatchOracles "example.com" (some []) (some []) true true 3000).2 =
      [⟨"https://example.com", defaultOpts⟩] := rfl

/-- Claim C3, amended: whenever the manual-URL mapping is NONEMPTY and
contains an entry for every requested page type, the fetcher is called
only on manual URLs: every recorded fetch call of `scrape_company`
targets one of the mapping's values (in particular the homepage is
never fetched and no discovery strategy ever fetches). -/
theorem C3_theorem (o : Oracles) (cu : String) (pts? : Option (List String))
    (man : List (String × String)) (js sc : Bool) (w : Nat)
    (hne : man ≠ [])
    (hall : ∀ pt ∈ pts?.getD defaultPageTypes, (man.lookup pt).isSome = true) :
    ∀ c ∈ (scrape_company o cu pts? (some man) js sc w).2,
      c.url ∈ man.map Prod.snd := by
  have ham := allManualB_true man (pts?.getD defaultPageTypes) hne hall
  intro c hc
  simp only [scrape_company, ham, Bool.not_true] at hc
  simp only [Bool.false_eq_true, if_false] at hc
  exact scrapeLoop_manual_calls o (normalize_url cu) (get_base_domain (normalize_url cu))
    man none true js sc w hne (pts?.getD defaultPageTypes) hall
    ⟨[], 0, [], []⟩ (by simp) c hc

/-- The manual mapping of the C3 witness scenario. -/
def c3man : List (String × String) :=
  [("about", "https://manual.example/about")]

/-- The fetch trace of the C3 witness scenario: one page type, one
manual URL. -/
def c3trace : List FetchCall :=
  (scrape_company noMatchOracles "example.com" (some ["about"]) (some c3man)
    true true 3000).2

/-- Witness for C3: in the concrete all-manual scenario the traced
fetch call indeed targets the manual URL. -/
theorem C3_witness :
    (c3trace.headD ⟨"", defaultOpts⟩).url ∈ c3man.map Prod.snd :=
  C3_theorem noMatchOracles "example.com" (some ["about"]) c3man true true 3000
    (by decide) (by decide) (c3trace.headD ⟨"", defaultOpts⟩) (by decide)

/-! ### Claim C10 -/

/-- Claim C10: for every call to `scrape_company` whose requested
page-type list is the empty list, the success-rate metadata divides by
the length of that list, so the call raises `ZeroDivisionError`
instead of returning a profile — under every oracle, company URL,
manual mapping and rendering option. -/
theorem C10_theorem (o : Oracles) (company_url : String)
    (manual_urls : Option (List (String × String))) (js sc : Bool) (w : Nat) :
    (scrape_company o company_url (some []) manual_urls js sc w).1 =
      Except.error PyError.zeroDivision := rfl

/-! ### Claim C2 -/

/-- Each page-loop iteration either appends one page record whose text
is longer than 200 characters, or appends the page type to the failed
list. -/
theorem scrapePageStep_pages (o : Oracles) (cu bd : String)
    (man : Option (List (String × String))) (hh : Option String) (am js sc : Bool)
    (w : Nat) (st : ScrapeLoopState) (pt : String) :
    (∃ r : PageRecord, 200 < r.text.length ∧
       (scrapePageStep o cu bd man hh am js sc w st pt).pages = st.pages ++ [(pt, r)] ∧
       (scrapePageStep o cu bd man hh am js sc w st pt).failed_pages = st.failed_pages) ∨
    ((scrapePageStep o cu bd man hh am js sc w st pt).pages = st.pages ∧
     (scrapePageStep o cu bd man hh am js sc w st pt).failed_pages =
       st.failed_pages ++ [pt]) := by
  unfold scrapePageStep
  split
  · next murl heq =>
    dsimp only
    split
    · next hok =>
      refine Or.inl ⟨mkPageRecord _, ?_, rfl, rfl⟩
      simpa [mkPageRecord] using fetchOk_text_length hok
    · exact Or.inr ⟨rfl, rfl⟩
  · split
    · dsimp only
      split
      · next r heq2 =>
        refine Or.inl ⟨mkPageRecord r, ?_, rfl, rfl⟩
        simpa [mkPageRecord] using
          fetchOk_text_length (scrape_with_fallback_some o cu bd pt hh js sc w r heq2)
      · exact Or.inr ⟨rfl, rfl⟩
    · exact Or.inr ⟨rfl, rfl⟩

/-- The page loop only appends to the page map and the failed list. -/
theorem scrapeLoop_pages_prefix (o : Oracles) (cu bd : String)
    (man : Option (List (String × String))) (hh : Option String) (am js sc : Bool)
    (w : Nat) :
    ∀ (pts : List String) (st : ScrapeLoopState),
      ∃ ps fs,
        (pts.foldl (scrapePageStep o cu bd man hh am js sc w) st).pages =
          st.pages ++ ps ∧
        (pts.foldl (scrapePageStep o cu bd man hh am js sc w) st).failed_pages =
          st.failed_pages ++ fs := by
  intro pts
  induction pts with
  | nil => intro st; exact ⟨[], [], by simp, by simp⟩
  | cons p rest ih =>
    intro st
    obtain ⟨ps2, fs2, hp2, hf2⟩ := ih (scrapePageStep o cu bd man hh am js sc w st p)
    simp only [List.foldl_cons]
    rcases scrapePageStep_pages o cu bd man hh am js sc w st p with
      ⟨r, _, hp1, hf1⟩ | ⟨hp1, hf1⟩
    · exact ⟨(p, r) :: ps2, fs2, by rw [hp2, hp1]; simp, by rw [hf2, hf1]⟩
    · exact ⟨ps2, p :: fs2, by rw [hp2, hp1], by rw [hf2, hf1]; simp⟩

/-- The page loop preserves the 200-character page invariant. -/
theorem scrapeLoop_pages_threshold (o : Oracles) (cu bd : String)
    (man : Option (List (String × String))) (hh : Option String) (am js sc : Bool)
    (w : Nat) :
    ∀ (pts : List String) (st : ScrapeLoopState),
      (∀ q ∈ st.pages, 200 < (q : String × PageRecord).2.text.length) →
      ∀ q ∈ (pts.foldl (scrapePageStep o cu bd man hh am js sc w) st).pages,
        200 < (q : String × PageRecord).2.text.length := by
  intro pts
  induction pts with
  | nil => intro st h; simpa using h
  | cons p rest ih =>
    intro st hst
    simp only [List.foldl_cons]
    apply ih
    intro q hq
    rcases scrapePageStep_pages o cu bd man hh am js sc w st p with
      ⟨r, hr, hp1, _⟩ | ⟨hp1, _⟩
    · rw [hp1] at hq
      rcases List.mem_append.mp hq with h1 | h2
      · exact hst q h1
      · simp at h2; rw [h2]; exact hr
    · rw [hp1] at hq; exact hst q hq

/-- Every page type the loop processes ends up either in the page map
or in the failed list. -/
theorem scrapeLoop_resolved_or_failed (o : Oracles) (cu bd : String)
    (man : Option (List (String × String))) (hh : Option String) (am js sc : Bool)
    (w : Nat) :
    ∀ (pts : List String) (st : ScrapeLoopState),
      ∀ pt ∈ pts,
        (∃ pr, (pt, pr) ∈
          (pts.foldl (scrapePageStep o cu bd man hh am js sc w) st).pages) ∨
        pt ∈ (pts.foldl (scrapePageStep o cu bd man hh am js sc w) st).failed_pages := by
  intro pts
  induction pts with
  | nil => simp
  | cons p rest ih =>
    intro st pt hpt
    simp only [List.foldl_cons]
    rcases List.mem_cons.mp hpt with rfl | hmem
    · obtain ⟨ps, fs, hps, hfs⟩ := scrapeLoop_pages_prefix o cu bd man hh am js sc w
        rest (scrapePageStep o cu bd man hh am js sc w st pt)
      rcases scrapePageStep_pages o cu bd man hh am js sc w st pt with
        ⟨r, _, hp1, _⟩ | ⟨_, hf1⟩
      · exact Or.inl ⟨r, by rw [hps, hp1]; simp⟩
      · exact Or.inr (by rw [hfs, hf1]; simp)
    · exact ih (scrapePageStep o cu bd man hh am js sc w st p) pt hmem

/-- Claim C2: in every profile `scrape_company` returns, every record
of the page map has extracted text strictly longer than 200
characters, and every requested page type is either present in the
page map or recorded in the failed list (so a fetched page with text
of at most 200 characters never appears in the map — its type is
recorded as failed). -/
theorem C2_theorem (o : Oracles) (cu : String) (pts? : Option (List String))
    (man : Option (List (String × String))) (js sc : Bool) (w : Nat)
    (p : CompanyProfile)
    (hp : (scrape_company o cu pts? man js sc w).1 = Except.ok p) :
    (∀ q ∈ p.pages, 200 < (q : String × PageRecord).2.text.length) ∧
    (∀ pt ∈ pts?.getD defaultPageTypes,
       (∃ pr, (pt, pr) ∈ p.pages) ∨ pt ∈ p.failed_pages) := by
  unfold scrape_company at hp
  dsimp only at hp
  split at hp
  · exact absurd hp (by simp)
  · split at hp
    · exact absurd hp (by simp)
    · next jobs hjobs =>
      rw [Except.ok.injEq] at hp
      subst hp
      constructor
      · exact scrapeLoop_pages_threshold o _ _ man _ _ js sc w _ _ (by simp)
      · exact scrapeLoop_resolved_or_failed o _ _ man _ _ js sc w _ _

/-- An all-zero page record, used as a lookup default. -/
def dummyRecord : PageRecord :=
  ⟨"", "", "", "", 0, ""⟩

/-- The profile of the C2 witness scenario: one requested page type,
every fetch succeeding with 201 characters of text. -/
def c2profile : CompanyProfile :=
  match (scrape_company okFetchOracles "example.com" (some ["about"]) none
          true true 3000).1 with
  | .ok p => p
  | .error _ => ⟨"", "", [], 0, [], ⟨0, 0, 0, 0, 0, false⟩, [], []⟩

set_option maxRecDepth 4000 in
/-- Witness for C2: in the concrete scenario the resolved about page
carries more than 200 characters of text. -/
theorem C2_witness :
    200 < ((c2profile.pages.lookup "about").getD dummyRecord).text.length := by
  have h := C2_theorem okFetchOracles "example.com" (some ["about"]) none
    true true 3000 c2profile (by rfl)
  exact h.1 ("about", (c2profile.pages.lookup "about").getD dummyRecord) (by decide)

/-! ### Character-case lemmas (Python `lower`/`title` interaction) -/

/-- `Char.ofNat` of a valid codepoint round-trips through `toNat`. -/
theorem char_toNat_ofNat {n : Nat} (h : n.isValidChar) : (Char.ofNat n).toNat = n := by
  simp [Char.ofNat, h, Char.ofNatAux, Char.toNat, UInt32.toNat, BitVec.toNat_ofNatLt]

/-- Lowering an uppered character equals lowering it directly. -/
theorem toLower_toUpper (c : Char) : c.toUpper.toLower = c.toLower := by
  unfold Char.toUpper Char.toLower
  dsimp only
  by_cases h : c.toNat ≥ 97 ∧ c.toNat ≤ 122
  · rw [if_pos h]
    have hv : (c.toNat - 32).isValidChar := by
      left; omega
    have htn : (Char.ofNat (c.toNat - 32)).toNat = c.toNat - 32 := char_toNat_ofNat hv
    rw [if_pos (by rw [htn]; omega : (Char.ofNat (c.toNat - 32)).toNat ≥ 65 ∧
          (Char.ofNat (c.toNat - 32)).toNat ≤ 90)]
    rw [if_neg (by omega : ¬(c.toNat ≥ 65 ∧ c.toNat ≤ 90))]
    rw [htn]
    have h32 : c.toNat - 32 + 32 = c.toNat := by omega
    rw [h32, Char.ofNat_toNat]
  · rw [if_neg h]

/-- `Char.toLower` is idempotent. -/
theorem toLower_toLower (c : Char) : c.toLower.toLower = c.toLower := by
  unfold Char.toLower
  dsimp only
  by_cases h : c.toNat ≥ 65 ∧ c.toNat ≤ 90
  · rw [if_pos h]
    have hv : (c.toNat + 32).isValidChar := by
      left; omega
    have htn : (Char.ofNat (c.toNat + 32)).toNat = c.toNat + 32 := char_toNat_ofNat hv
    rw [if_neg (by rw [htn]; omega : ¬((Char.ofNat (c.toNat + 32)).toNat ≥ 65 ∧
          (Char.ofNat (c.toNat + 32)).toNat ≤ 90))]
  · rw [if_neg h, if_neg h]

/-- Title-casing does not change the lowered characters. -/
theorem pyTitleAux_toLower : ∀ (l : List Char) (b : Bool),
    (pyTitleAux l b).map Char.toLower = l.map Char.toLower := by
  intro l
  induction l with
  | nil => intro b; rfl
  | cons c rest ih =>
    intro b
    unfold pyTitleAux
    by_cases ha : c.isAlpha = true
    · rw [if_pos ha]
      cases b with
      | false => simp [List.map_cons, ih, toLower_toUpper]
      | true => simp [List.map_cons, ih, toLower_toLower]
    · rw [if_neg ha]
      simp [List.map_cons, ih]

/-- Python `s.title().lower() == s.lower()`. -/
theorem pyLower_pyTitle (s : String) : pyLower (pyTitle s) = pyLower s :=
  congrArg String.mk (pyTitleAux_toLower s.data false)

/-! ### Claim C5 -/

/-- A careers-page HTML fragment carrying one JSON apply URL and no
href job link: `"apply_url": "https://acme.example/jobs/senior-engineer"`. -/
def c5html : String :=
  "\"apply_url\": \"https://acme.example/jobs/senior-engineer\""

/-- Oracle of the C5 failing input: the `json_url_patterns` regexes
find the apply URL in `c5html` (pattern 2 matches), the href
`job_url_patterns` find nothing (the fragment has no `href=`
attribute). -/
def c5Oracle : Oracles :=
  { noMatchOracles with jsonUrlPatternMatches :=
      fun _ => [["https://acme.example/jobs/senior-engineer"]] }

/-- Claim C5 (code bug): instead of attaching each found URL to an
extracted title (or synthesizing a title from the slug), the code
reaches the attachment block — which, through the indentation of
lines 650-678, sits inside the `json_url_patterns` loop and reads the
stale href-loop variable `url` — and crashes with `UnboundLocalError`,
because no href URL was ever iterated. -/
theorem C5_theorem :
    extract_job_listings c5Oracle "" (some c5html) none =
      Except.error PyError.unboundLocalUrl := rfl

/-! ### Claim C6 -/

/-- Every fetch of the subdomain strategy uses the plain options. -/
theorem trySubdomainGo_opts (o : Oracles) (bd : String) :
    ∀ ls c, c ∈ (trySubdomainGo o bd ls).2 → c.opts = defaultOpts := by
  intro ls
  induction ls with
  | nil => intro c h; simp [trySubdomainGo] at h
  | cons l rest ih =>
    intro c h
    simp only [trySubdomainGo] at h
    split at h
    · simp at h; rw [h]
    · rcases List.mem_cons.mp h with h1 | h2
      · rw [h1]
      · exact ih c h2

/-- Every fetch of the homepage-link strategy uses the plain options. -/
theorem tryHomepageGo_opts (o : Oracles) (cu : String) :
    ∀ ls c, c ∈ (tryHomepageGo o cu ls).2 → c.opts = defaultOpts := by
  intro ls
  induction ls with
  | nil => intro c h; simp [tryHomepageGo] at h
  | cons l rest ih =>
    intro c h
    simp only [tryHomepageGo] at h
    generalize (if pyStartsWith l "http" = true then l
                else pyUrljoin (cu ++ "/") (pyLstripChar l '/')) = u at h
    split at h
    · simp at h; rw [h]
    · rcases List.mem_cons.mp h with h1 | h2
      · rw [h1]
      · exact ih c h2

/-- Every fetch of the path strategy uses the `pathFetchOpts`
options. -/
theorem tryPathGo_opts (o : Oracles) (bu pt : String) (js sc : Bool) (w : Nat) :
    ∀ ls c, c ∈ (tryPathGo o bu pt js sc w ls).2 →
      c.opts = pathFetchOpts js sc w pt := by
  intro ls
  induction ls with
  | nil => intro c h; simp [tryPathGo] at h
  | cons l rest ih =>
    intro c h
    simp only [tryPathGo] at h
    split at h
    · simp at h; rw [h]
    · rcases List.mem_cons.mp h with h1 | h2
      · rw [h1]
      · exact ih c h2

/-- Oracle of the C6 counterexample: only the careers subdomain URL
resolves. -/
def c6Oracle : Oracles :=
  { noMatchOracles with fetch := fun u _ =>
      if u == "https://careers.example.com" then okResult u else failResult u }

set_option maxRecDepth 8000 in
/-- Claim C6 counterexample: resolving a careers page with full
rendering options requested (`js_rendering = true`, scroll on, 3000 ms
wait), the subdomain strategy fetches `https://careers.example.com`
with the PLAIN options — JS rendering off, no scroll, no extra wait —
refuting the claim that every careers fetch of the cascade renders. -/
theorem C6_counterexample :
    (scrape_company c6Oracle "example.com" (some ["careers"]) none true true 3000).2 =
      [⟨"https://example.com", defaultOpts⟩,
       ⟨"https://careers.example.com", defaultOpts⟩] ∧
    defaultOpts.wait_for_js = false :=
  ⟨rfl, rfl⟩

/-- Claim C6, amended: the rendering policy is per-strategy, not
per-page-type: subdomain and homepage-link fetches always use the
plain non-rendering fetch (careers included); path-strategy fetches
use JS rendering with the configured scroll and extra wait exactly
when the caller's `js_rendering` flag is on (for every page type,
since the `use_js` test reduces to the flag); the manual-override
fetch behaves likewise, adding the job-listing selector for careers
pages. -/
theorem C6_theorem :
    (∀ (o : Oracles) (bd pt : String) (c : FetchCall),
        c ∈ (try_subdomain_patterns o bd pt).2 → c.opts = defaultOpts) ∧
    (∀ (o : Oracles) (cu pt hh : String) (c : FetchCall),
        c ∈ (try_homepage_links o cu pt hh).2 → c.opts = defaultOpts) ∧
    (∀ (o : Oracles) (bu pt : String) (sc : Bool) (w : Nat) (c : FetchCall),
        c ∈ (try_path_patterns o bu pt true sc w).2 →
          c.opts = ⟨true, sc, w, none⟩) ∧
    (∀ (o : Oracles) (bu pt : String) (sc : Bool) (w : Nat) (c : FetchCall),
        c ∈ (try_path_patterns o bu pt false sc w).2 → c.opts = defaultOpts) ∧
    (∀ (sc : Bool) (w : Nat) (pt : String),
        manualFetchOpts true sc w pt =
          ⟨true, sc, w,
           if pt == "careers" then some jobListingSelector0 else none⟩ ∧
        manualFetchOpts false sc w pt = defaultOpts) := by
  refine ⟨?_, ?_, ?_, ?_, ?_⟩
  · intro o bd pt c hc
    unfold try_subdomain_patterns at hc
    split at hc
    · simp at hc
    · exact trySubdomainGo_opts o bd _ c hc
  · intro o cu pt hh c hc
    exact tryHomepageGo_opts o cu _ c hc
  · intro o bu pt sc w c hc
    unfold try_path_patterns at hc
    split at hc
    · simp at hc
    · have := tryPathGo_opts o bu pt true sc w _ c hc
      rw [this]
      simp [pathFetchOpts]
  · intro o bu pt sc w c hc
    unfold try_path_patterns at hc
    split at hc
    · simp at hc
    · exact tryPathGo_opts o bu pt false sc w _ c hc
  · intro sc w pt
    refine ⟨?_, rfl⟩
    unfold manualFetchOpts
    simp only [Bool.or_true, Bool.and_true, Bool.true_and, if_true]

/-- Witness for C6: a concrete subdomain careers fetch carries the
plain options, a concrete path careers fetch (with the flag on)
carries the rendering options, and a flag-on manual fetch of a
NON-careers page type ("about") also renders. -/
theorem C6_witness :
    (⟨"https://careers.x.com", defaultOpts⟩ : FetchCall).opts = defaultOpts ∧
    (⟨"https://x.com/careers", (⟨true, true, 3000, none⟩ : FetchOpts)⟩ : FetchCall).opts =
      ⟨true, true, 3000, none⟩ ∧
    manualFetchOpts true true 3000 "about" = ⟨true, true, 3000, none⟩ :=
  ⟨C6_theorem.1 noMatchOracles "x.com" "careers"
      ⟨"https://careers.x.com", defaultOpts⟩ (by decide),
   C6_theorem.2.2.1 noMatchOracles "https://x.com" "careers" true 3000
      ⟨"https://x.com/careers", ⟨true, true, 3000, none⟩⟩ (by decide),
   (C6_theorem.2.2.2.2 true 3000 "about").1⟩

/-! ### Lemmas about the stable sort -/

/-- Inserting is a permutation of consing. -/
theorem insertStable_perm {α : Type} (le : α → α → Bool) (x : α) :
    ∀ l, (insertStable le x l).Perm (x :: l) := by
  intro l
  induction l with
  | nil => simp [insertStable]
  | cons y ys ih =>
    simp only [insertStable]
    split
    · exact List.Perm.refl _
    · exact (List.Perm.cons y ih).trans (List.Perm.swap x y ys)

/-- The stable sort permutes its input. -/
theorem insertionSortBy_perm {α : Type} (le : α → α → Bool) :
    ∀ l, (insertionSortBy le l).Perm l := by
  intro l
  induction l with
  | nil => simp [insertionSortBy]
  | cons x xs ih =>
    simp only [insertionSortBy]
    exact (insertStable_perm le x _).trans (List.Perm.cons x ih)

/-- Sorting does not change membership. -/
theorem mem_insertionSortBy {α : Type} {le : α → α → Bool} {a : α} {l : List α} :
    a ∈ insertionSortBy le l ↔ a ∈ l :=
  (insertionSortBy_perm le l).mem_iff

/-- Inserting into a `le`-sorted list keeps it sorted, for a total
transitive `le`. -/
theorem insertStable_pairwise {α : Type} (le : α → α → Bool)
    (total : ∀ a b, (le a b || le b a) = true)
    (trans : ∀ a b c, le a b = true → le b c = true → le a c = true)
    (x : α) : ∀ (l : List α), l.Pairwise (fun a b => le a b = true) →
      (insertStable le x l).Pairwise (fun a b => le a b = true) := by
  intro l
  induction l with
  | nil => intro _; simp [insertStable]
  | cons y ys ih =>
    intro hl
    rcases List.pairwise_cons.mp hl with ⟨hy, hys⟩
    simp only [insertStable]
    split
    · next hxy =>
      refine List.pairwise_cons.mpr ⟨?_, hl⟩
      intro z hz
      rcases List.mem_cons.mp hz with rfl | hz2
      · exact hxy
      · exact trans x y z hxy (hy z hz2)
    · next hxy =>
      have hyx : le y x = true := by
        have := total x y
        rcases Bool.or_eq_true_iff.mp this with h | h
        · exact absurd h hxy
        · exact h
      refine List.pairwise_cons.mpr ⟨?_, ih hys⟩
      intro z hz
      rcases List.mem_cons.mp ((insertStable_perm le x ys).mem_iff.mp hz) with rfl | hz2
      · exact hyx
      · exact hy z hz2

/-- The stable sort sorts, for a total transitive `le`. -/
theorem insertionSortBy_pairwise {α : Type} (le : α → α → Bool)
    (total : ∀ a b, (le a b || le b a) = true)
    (trans : ∀ a b c, le a b = true → le b c = true → le a c = true) :
    ∀ (l : List α), (insertionSortBy le l).Pairwise (fun a b => le a b = true) := by
  intro l
  induction l with
  | nil => simp [insertionSortBy]
  | cons x xs ih =>
    simp only [insertionSortBy]
    exact insertStable_pairwise le total trans x _ ih

/-! ### Claim C9 -/

/-- The name-validity conditions the name+title strategy enforces
(scraper_agent.py lines 790-810), as a predicate on the contact:
2-4 whitespace tokens, no digit or `/`, `#`, `@` character, no
job-title indicator substring — demanded only of contacts carrying a
title (the other strategies construct contacts without one). -/
def nameOkB (c : ExtractedContact) : Bool :=
  c.title.isNone ||
  (decide (2 ≤ (pySplitWs c.name).length) && decide ((pySplitWs c.name).length ≤ 4) &&
   !(c.name.data.any fun ch => ch.isDigit || ch == '/' || ch == '#' || ch == '@') &&
   !(jobTitleIndicators.any fun ind => pyContains (pyLower c.name) ind))

/-- A fold preserves any invariant its step preserves. -/
theorem foldlRec {α β : Type} (P : β → Prop) (f : β → α → β)
    (hf : ∀ st a, P st → P (f st a)) :
    ∀ (xs : List α) (st : β), P st → P (xs.foldl f st) := by
  intro xs
  induction xs with
  | nil => intro st h; exact h
  | cons x rest ih => intro st h; exact ih (f st x) (hf st x h)

/-- The email-attachment loop returns each contact either unchanged or
with the email filled in (it was empty) and the score raised by 0.2. -/
theorem attachEmail_shape (e : String) :
    ∀ (l : List ExtractedContact), ∀ c ∈ attachEmailToContacts e l,
      c ∈ l ∨ ∃ d ∈ l, d.email = none ∧
        c = { d with email := some e, relevance_score := d.relevance_score + 0.2 } := by
  intro l
  induction l with
  | nil => intro c hc; simp [attachEmailToContacts] at hc
  | cons d rest ih =>
    intro c hc
    simp only [attachEmailToContacts] at hc
    by_cases he : (d.email == none) = true
    · rw [if_pos he] at hc
      by_cases hm : (pyContains (pyLower e) (pyReplace (pyLower d.name) " " "") ||
          pyContains (pyReplace (pyLower d.name) " " "")
            (pyLower ((pySplitOn e "@").headD ""))) = true
      · rw [if_pos hm] at hc
        rcases List.mem_cons.mp hc with h1 | h2
        · exact Or.inr ⟨d, List.mem_cons_self d rest, beq_iff_eq.mp he, h1⟩
        · exact Or.inl (List.mem_cons_of_mem d h2)
      · rw [if_neg hm] at hc
        rcases List.mem_cons.mp hc with h1 | h2
        · exact Or.inl (h1 ▸ List.mem_cons_self d rest)
        · rcases ih c h2 with h | ⟨d2, hd2, hh⟩
          · exact Or.inl (List.mem_cons_of_mem d h)
          · exact Or.inr ⟨d2, List.mem_cons_of_mem d hd2, hh⟩
    · rw [if_neg he] at hc
      rcases List.mem_cons.mp hc with h1 | h2
      · exact Or.inl (h1 ▸ List.mem_cons_self d rest)
      · rcases ih c h2 with h | ⟨d2, hd2, hh⟩
        · exact Or.inl (List.mem_cons_of_mem d h)
        · exact Or.inr ⟨d2, List.mem_cons_of_mem d hd2, hh⟩

/-- The LinkedIn strategy only adds title-free contacts. -/
theorem contactsLinkedinStep_nameOk (sp : String) (st : ContactScanState) (url : String)
    (h : ∀ c ∈ st.contacts, nameOkB c = true) :
    ∀ c ∈ (contactsLinkedinStep sp st url).contacts, nameOkB c = true := by
  intro c hc
  unfold contactsLinkedinStep at hc
  dsimp only at hc
  split at hc
  · rcases List.mem_append.mp hc with h1 | h2
    · exact h c h1
    · simp only [List.mem_singleton] at h2
      rw [h2]
      simp [nameOkB]
  · exact h c hc

/-- The name+title strategy only adds contacts passing the
name-validity filter. -/
theorem contactsNameTitleStep_nameOk (sp : String) (st : ContactScanState)
    (m : String × String)
    (h : ∀ c ∈ st.contacts, nameOkB c = true) :
    ∀ c ∈ (contactsNameTitleStep sp st m).contacts, nameOkB c = true := by
  intro c hc
  unfold contactsNameTitleStep at hc
  dsimp only at hc
  split at hc <;>
  (split at hc
   case isTrue hcond =>
     rcases List.mem_append.mp hc with h1 | h2
     · exact h c h1
     · simp only [List.mem_singleton] at h2
       rw [h2]
       simp only [Bool.and_eq_true] at hcond
       obtain ⟨⟨⟨⟨g1, g2⟩, g3⟩, g4⟩, g5⟩ := hcond
       simp [nameOkB, g1, g2, g4, g5]
   case isFalse _ => exact h c hc)

/-- The email strategy adds only title-free contacts and otherwise
leaves names and titles unchanged. -/
theorem contactsEmailStep_nameOk (sp : String) (st : ContactScanState) (email : String)
    (h : ∀ c ∈ st.contacts, nameOkB c = true) :
    ∀ c ∈ (contactsEmailStep sp st email).contacts, nameOkB c = true := by
  intro c hc
  unfold contactsEmailStep at hc
  dsimp only at hc
  split at hc
  · exact h c hc
  · split at hc
    · split at hc
      · rcases List.mem_append.mp hc with h1 | h2
        · exact h c h1
        · simp only [List.mem_singleton] at h2
          rw [h2]
          simp [nameOkB]
      · exact h c hc
    · rcases attachEmail_shape email st.contacts c hc with hmem | ⟨d, hd, _, heq⟩
      · exact h c hmem
      · rw [heq]
        have hnd := h d hd
        simpa [nameOkB] using hnd

/-- Every contact the per-page extractor returns satisfies the
name-validity predicate. -/
theorem extract_contacts_nameOk (o : Oracles) (text : String) (html : Option String)
    (sp : String) :
    ∀ c ∈ extract_contacts_from_text o text html sp, nameOkB c = true := by
  intro c hc
  unfold extract_contacts_from_text at hc
  dsimp only at hc
  have hc2 := mem_insertionSortBy.mp (List.take_subset _ _ hc)
  refine foldlRec (fun st : ContactScanState => ∀ c ∈ st.contacts, nameOkB c = true)
    (contactsEmailStep sp) (fun st a hst => contactsEmailStep_nameOk sp st a hst)
    _ _ ?_ c hc2
  refine foldlRec _ (contactsNameTitleStep sp)
    (fun st a hst => contactsNameTitleStep_nameOk sp st a hst) _ _ ?_
  cases html with
  | none => simp
  | some hh =>
    dsimp only
    split
    · refine foldlRec _ (contactsLinkedinStep sp)
        (fun st a hst => contactsLinkedinStep_nameOk sp st a hst) _ _ ?_
      simp
    · simp

/-- Claim C9, amended: only the name+title strategy enforces name
validity, so the guarantee holds exactly for the contacts that carry a
title: such a contact's name has 2 to 4 whitespace-separated tokens,
contains no digit and none of `/`, `#`, `@`, and contains no job-title
indicator keyword.  (Profile-link and email-derived names are only
length-checked and may contain digits or a single token.) -/
theorem C9_theorem (o : Oracles) (text : String) (html : Option String)
    (sp : String) (c : ExtractedContact)
    (hc : c ∈ extract_contacts_from_text o text html sp)
    (ht : c.title.isSome = true) :
    2 ≤ (pySplitWs c.name).length ∧ (pySplitWs c.name).length ≤ 4 ∧
    (c.name.data.any fun ch => ch.isDigit || ch == '/' || ch == '#' || ch == '@') = false ∧
    (jobTitleIndicators.any fun ind => pyContains (pyLower c.name) ind) = false := by
  have h := extract_contacts_nameOk o text html sp c hc
  cases hco : c.title with
  | none => rw [hco] at ht; simp at ht
  | some t =>
    rw [nameOkB, hco] at h
    simp only [Option.isNone_some, Bool.false_or, Bool.and_eq_true,
      decide_eq_true_eq, Bool.not_eq_true', List.any_eq_false] at h
    obtain ⟨⟨⟨g1, g2⟩, g3⟩, g4⟩ := h
    refine ⟨g1, g2, ?_, ?_⟩
    · rw [List.any_eq_false]; intro x hx; simpa using g3 x hx
    · rw [List.any_eq_false]; intro x hx; simpa using g4 x hx

/-- Oracle of the C9 witness scenario: one name/title regex match. -/
def c9wOracle : Oracles :=
  { noMatchOracles with nameTitleMatches1 :=
      fun _ => [("John Smith", "Technical Recruiter")] }

/-- The contact the C9 witness scenario produces. -/
def c9wContact : ExtractedContact :=
  ⟨"John Smith", some "Technical Recruiter", none, none, "team", 0.9⟩

/-- Witness for C9: the concrete titled contact passes every
name-validity condition. -/
theorem C9_witness :
    2 ≤ (pySplitWs c9wContact.name).length ∧ (pySplitWs c9wContact.name).length ≤ 4 ∧
    (c9wContact.name.data.any fun ch =>
        ch.isDigit || ch == '/' || ch == '#' || ch == '@') = false ∧
    (jobTitleIndicators.any fun ind => pyContains (pyLower c9wContact.name) ind) = false :=
  C9_theorem c9wOracle "x" none "team" c9wContact
    (by
      have h : extract_contacts_from_text c9wOracle "x" none "team" = [c9wContact] := rfl
      rw [h]
      exact List.mem_singleton.mpr rfl)
    rfl

/-- Modelled from the spec: the data-model invariant on contact names,
"name must look like a personal name (2-4 capitalized tokens, no
digits/special characters, not a job-title phrase)". -/
def specPersonalName (name : String) : Bool :=
  let ws := pySplitWs name
  decide (2 ≤ ws.length) && decide (ws.length ≤ 4) &&
  ws.all (fun w => match w.data with | [] => false | ch :: _ => ch.isUpper) &&
  name.data.all (fun ch => ch.isAlpha || pyIsSpace ch) &&
  !(jobTitleIndicators.any fun ind => pyContains (pyLower name) ind)

/-- The homepage HTML of the C9 counterexample, carrying one LinkedIn
profile link whose slug contains digits. -/
def c9html : String :=
  "<a href=\"https://www.linkedin.com/in/jane-doe-123\">Jane Doe</a>"

/-- Oracle of the C9 counterexample: the LinkedIn regex finds the
profile URL in `c9html`. -/
def c9Oracle : Oracles :=
  { noMatchOracles with linkedinMatches :=
      fun _ => ["https://www.linkedin.com/in/jane-doe-123"] }

/-- Claim C9 counterexample: the profile-link strategy derives the
name `Jane Doe 123` — three tokens, one of them all digits — from the
LinkedIn slug with only a length check, so the produced contact does
not look like a personal name in the claimed sense. -/
theorem C9_counterexample :
    (extract_contacts_from_text c9Oracle "" (some c9html) "team").map
      (fun c => c.name) = ["Jane Doe 123"] ∧
    specPersonalName "Jane Doe 123" = false :=
  ⟨rfl, rfl⟩

/-! ### Claim C4 -/

/-- The invariant the per-page extractor maintains: scores lie in
[0, 1.1], and a contact without an email is still at most 0.9 (the
+0.2 email boost has not been applied to it). -/
def scoreInv (c : ExtractedContact) : Prop :=
  0 ≤ c.relevance_score ∧ c.relevance_score ≤ 11/10 ∧
  (c.email = none → c.relevance_score ≤ 9/10)

/-- The relevance table takes exactly the four tier values. -/
theorem calculate_title_relevance_cases (t : String) :
    calculate_title_relevance t = 0.9 ∨ calculate_title_relevance t = 0.7 ∨
    calculate_title_relevance t = 0.5 ∨ calculate_title_relevance t = 0.3 := by
  unfold calculate_title_relevance
  dsimp only
  split
  · exact Or.inl rfl
  · split
    · exact Or.inr (Or.inl rfl)
    · split
      · exact Or.inr (Or.inr (Or.inl rfl))
      · exact Or.inr (Or.inr (Or.inr rfl))

/-- The LinkedIn strategy adds contacts at score 0.3 without email. -/
theorem contactsLinkedinStep_scores (sp : String) (st : ContactScanState) (url : String)
    (h : ∀ c ∈ st.contacts, scoreInv c) :
    ∀ c ∈ (contactsLinkedinStep sp st url).contacts, scoreInv c := by
  intro c hc
  unfold contactsLinkedinStep at hc
  dsimp only at hc
  split at hc
  · rcases List.mem_append.mp hc with h1 | h2
    · exact h c h1
    · simp only [List.mem_singleton] at h2
      rw [h2]
      refine ⟨by norm_num, by norm_num, fun _ => by norm_num⟩
  · exact h c hc

/-- The name+title strategy adds contacts at a tier score without
email. -/
theorem contactsNameTitleStep_scores (sp : String) (st : ContactScanState)
    (m : String × String)
    (h : ∀ c ∈ st.contacts, scoreInv c) :
    ∀ c ∈ (contactsNameTitleStep sp st m).contacts, scoreInv c := by
  intro c hc
  unfold contactsNameTitleStep at hc
  dsimp only at hc
  split at hc <;>
  (split at hc
   case isTrue hcond =>
     rcases List.mem_append.mp hc with h1 | h2
     · exact h c h1
     · simp only [List.mem_singleton] at h2
       rw [h2]
       refine ⟨?_, ?_, fun _ => ?_⟩ <;>
       · rcases calculate_title_relevance_cases (pyStrip m.1) with hr | hr | hr | hr <;>
         rcases calculate_title_relevance_cases (pyStrip m.2) with hr2 | hr2 | hr2 | hr2 <;>
         simp only [hr, hr2] <;> norm_num
   case isFalse _ => exact h c hc)

/-- The email strategy adds contacts at 0.4 with email, or boosts an
email-free contact by 0.2 while filling its email. -/
theorem contactsEmailStep_scores (sp : String) (st : ContactScanState) (email : String)
    (h : ∀ c ∈ st.contacts, scoreInv c) :
    ∀ c ∈ (contactsEmailStep sp st email).contacts, scoreInv c := by
  intro c hc
  unfold contactsEmailStep at hc
  dsimp only at hc
  split at hc
  · exact h c hc
  · split at hc
    · split at hc
      · rcases List.mem_append.mp hc with h1 | h2
        · exact h c h1
        · simp only [List.mem_singleton] at h2
          rw [h2]
          refine ⟨by norm_num, by norm_num, fun hh => by simp at hh⟩
      · exact h c hc
    · rcases attachEmail_shape email st.contacts c hc with hmem | ⟨d, hd, hde, heq⟩
      · exact h c hmem
      · obtain ⟨g1, g2, g3⟩ := h d hd
        have g4 := g3 hde
        rw [heq]
        refine ⟨by dsimp only; linarith, by dsimp only; linarith,
          fun hh => by simp at hh⟩

/-- Every contact the per-page extractor returns satisfies the score
invariant. -/
theorem extract_contacts_scores (o : Oracles) (text : String) (html : Option String)
    (sp : String) :
    ∀ c ∈ extract_contacts_from_text o text html sp, scoreInv c := by
  intro c hc
  unfold extract_contacts_from_text at hc
  dsimp only at hc
  have hc2 := mem_insertionSortBy.mp (List.take_subset _ _ hc)
  refine foldlRec (fun st : ContactScanState => ∀ c ∈ st.contacts, scoreInv c)
    (contactsEmailStep sp) (fun st a hst => contactsEmailStep_scores sp st a hst)
    _ _ ?_ c hc2
  refine foldlRec _ (contactsNameTitleStep sp)
    (fun st a hst => contactsNameTitleStep_scores sp st a hst) _ _ ?_
  cases html with
  | none => simp
  | some hh =>
    dsimp only
    split
    · refine foldlRec _ (contactsLinkedinStep sp)
        (fun st a hst => contactsLinkedinStep_scores sp st a hst) _ _ ?_
      simp
    · simp

/-- Pooling across pages preserves the score invariant. -/
theorem pooledContacts_scores (o : Oracles) (pages : List (String × PageRecord)) :
    ∀ c ∈ pooledContacts o pages, scoreInv c := by
  unfold pooledContacts
  refine foldlRec (fun acc : List ExtractedContact => ∀ c ∈ acc, scoreInv c)
    _ ?_ _ _ (by simp)
  intro acc pt hacc c hc
  split at hc
  · split at hc
    · rcases List.mem_append.mp hc with h1 | h2
      · exact hacc c h1
      · exact extract_contacts_scores o _ _ _ c h2
    · exact hacc c hc
  · exact hacc c hc

/-- Deduplication only selects existing contacts. -/
theorem dedupByName_subset : ∀ (l : List ExtractedContact) (seen : List String),
    ∀ c ∈ dedupByName l seen, c ∈ l := by
  intro l
  induction l with
  | nil => intro seen c hc; simp [dedupByName] at hc
  | cons d rest ih =>
    intro seen c hc
    simp only [dedupByName] at hc
    split at hc
    · exact List.mem_cons_of_mem d (ih _ c hc)
    · rcases List.mem_cons.mp hc with h1 | h2
      · exact h1 ▸ List.mem_cons_self d rest
      · exact List.mem_cons_of_mem d (ih _ c h2)

/-- The target-role boost adds at most 0.2 + 0.1 on top of the
invariant bound. -/
theorem boostContact_bounds (kws : List String) (c : ExtractedContact)
    (h : scoreInv c) :
    0 ≤ (boostContact kws c).relevance_score ∧
    (boostContact kws c).relevance_score ≤ 7/5 := by
  obtain ⟨h1, h2, _⟩ := h
  unfold boostContact
  split
  · split
    · dsimp only
      split <;> split <;> constructor <;> (try dsimp only) <;> linarith
    · exact ⟨h1, by linarith⟩
  · exact ⟨h1, by linarith⟩

/-- Claim C4, amended: every relevance score in the final contact list
lies in the interval [0, 1.4] — the upper bound 1 of the claim is
wrong, because the base score can already be 0.9 and the email boost
(+0.2) and the target-role boosts (+0.2, +0.1) are added without any
clamping, so 1.4 = 0.9 + 0.2 + 0.2 + 0.1 is the true bound. -/
theorem C4_theorem (o : Oracles) (pages : List (String × PageRecord))
    (target_role : Option String) (c : ExtractedContact)
    (hc : c ∈ extract_contacts_from_company_data o pages target_role) :
    0 ≤ c.relevance_score ∧ c.relevance_score ≤ 7/5 := by
  unfold extract_contacts_from_company_data at hc
  dsimp only at hc
  have hc2 := mem_insertionSortBy.mp (List.take_subset _ _ hc)
  split at hc2
  · split at hc2
    · rcases List.mem_map.mp hc2 with ⟨d, hd, rfl⟩
      exact boostContact_bounds _ d
        (pooledContacts_scores o pages d (dedupByName_subset _ _ d hd))
    · obtain ⟨g1, g2, _⟩ :=
        pooledContacts_scores o pages c (dedupByName_subset _ _ c hc2)
      exact ⟨g1, by linarith⟩
  · obtain ⟨g1, g2, _⟩ :=
      pooledContacts_scores o pages c (dedupByName_subset _ _ c hc2)
    exact ⟨g1, by linarith⟩

/-- Oracle of the C4 scenario: one name/title match, a high-tier
recruiting title. -/
def c4Oracle : Oracles :=
  { noMatchOracles with nameTitleMatches1 :=
      fun _ => [("John Smith", "Technical Recruiter")] }

/-- The page map of the C4 scenario: one team page. -/
def c4Pages : List (String × PageRecord) :=
  [("team", ⟨"https://example.com/team", "Team", "x", "", 1, "now"⟩)]

/-- Claim C4 counterexample: with the target role "Recruiter" the
contact titled "Technical Recruiter" scores 0.9 (high tier) + 0.2
(role-keyword boost) = 1.1, which exceeds 1 — the relevance score is
not confined to [0, 1]. -/
theorem C4_counterexample :
    (extract_contacts_from_company_data c4Oracle c4Pages (some "Recruiter")).map
      (fun c => c.relevance_score) = [11/10] ∧ ¬((11 : ℚ)/10 ≤ 1) :=
  ⟨by with_unfolding_all rfl, by norm_num⟩

/-- The single contact of the C4 scenario (score 1.1). -/
def c4head : ExtractedContact :=
  (extract_contacts_from_company_data c4Oracle c4Pages (some "Recruiter")).headD
    ⟨"", none, none, none, "", 0⟩

/-- Witness for C4: the concrete 1.1-scored contact is within
[0, 1.4]. -/
theorem C4_witness : 0 ≤ c4head.relevance_score ∧ c4head.relevance_score ≤ 7/5 :=
  C4_theorem c4Oracle c4Pages (some "Recruiter") c4head (by
    have h : extract_contacts_from_company_data c4Oracle c4Pages (some "Recruiter") =
        [c4head] := by with_unfolding_all rfl
    rw [h]
    exact List.mem_singleton.mpr rfl)

/-! ### Claim C7 -/

/-- Contacts surviving dedup have unseen lowercase names. -/
theorem dedupByName_not_seen : ∀ (l : List ExtractedContact) (seen : List String),
    ∀ c ∈ dedupByName l seen, pyLower c.name ∉ seen := by
  intro l
  induction l with
  | nil => intro seen c hc; simp [dedupByName] at hc
  | cons d rest ih =>
    intro seen c hc
    simp only [dedupByName] at hc
    split at hc
    · exact ih seen c hc
    · next hd =>
      have hdmem : pyLower d.name ∉ seen := fun hm => hd (List.elem_iff.mpr hm)
      rcases List.mem_cons.mp hc with h1 | h2
      · subst h1; exact hdmem
      · intro hh
        exact ih (seen ++ [pyLower d.name]) c h2 (List.mem_append_left _ hh)

/-- Every surviving contact is the FIRST pooled contact with its
case-insensitive name. -/
theorem dedupByName_find : ∀ (l : List ExtractedContact) (seen : List String),
    ∀ c ∈ dedupByName l seen,
      l.find? (fun d => pyLower d.name == pyLower c.name) = some c := by
  intro l
  induction l with
  | nil => intro seen c hc; simp [dedupByName] at hc
  | cons d rest ih =>
    intro seen c hc
    simp only [dedupByName] at hc
    split at hc
    · next hd =>
      have hcs := dedupByName_not_seen rest seen c hc
      have hne : (pyLower d.name == pyLower c.name) = false := by
        rw [beq_eq_false_iff_ne]
        intro he
        rw [he] at hd
        exact hcs (List.elem_iff.mp hd)
      rw [List.find?_cons, hne]
      exact ih seen c hc
    · next hd =>
      rcases List.mem_cons.mp hc with h1 | h2
      · rw [h1]
        rw [List.find?_cons,
          show (pyLower d.name == pyLower d.name) = true from beq_self_eq_true _]
      · have hcs := dedupByName_not_seen rest (seen ++ [pyLower d.name]) c h2
        have hne : (pyLower d.name == pyLower c.name) = false := by
          rw [beq_eq_false_iff_ne]
          intro he
          exact hcs (List.mem_append_right _ (by rw [← he]; exact List.mem_singleton.mpr rfl))
        rw [List.find?_cons, hne]
        exact ih _ c h2

/-- After dedup the lowercase names are pairwise distinct. -/
theorem dedupByName_pairwise : ∀ (l : List ExtractedContact) (seen : List String),
    ((dedupByName l seen).map (fun c => pyLower c.name)).Pairwise (· ≠ ·) := by
  intro l
  induction l with
  | nil => intro seen; simp [dedupByName]
  | cons d rest ih =>
    intro seen
    simp only [dedupByName]
    split
    · exact ih seen
    · rw [List.map_cons, List.pairwise_cons]
      refine ⟨?_, ih (seen ++ [pyLower d.name])⟩
      intro k hk
      rcases List.mem_map.mp hk with ⟨c, hc, rfl⟩
      have hns := dedupByName_not_seen rest (seen ++ [pyLower d.name]) c hc
      intro he
      exact hns (List.mem_append_right _ (by rw [← he]; exact List.mem_singleton.mpr rfl))

/-- The target-role boost changes only the relevance score. -/
theorem boostContact_fields (kws : List String) (c : ExtractedContact) :
    (boostContact kws c).name = c.name ∧ (boostContact kws c).title = c.title ∧
    (boostContact kws c).email = c.email ∧
    (boostContact kws c).linkedin_url = c.linkedin_url ∧
    (boostContact kws c).source_page = c.source_page := by
  unfold boostContact
  split
  · split
    · exact ⟨rfl, rfl, rfl, rfl, rfl⟩
    · exact ⟨rfl, rfl, rfl, rfl, rfl⟩
  · exact ⟨rfl, rfl, rfl, rfl, rfl⟩

/-- Sorting and truncating preserve pairwise-distinct names. -/
theorem pairwise_key_sort_take (l : List ExtractedContact) (n : Nat)
    (h : (l.map fun c => pyLower c.name).Pairwise (· ≠ ·)) :
    (((insertionSortBy contactScoreDescB l).take n).map
      fun c => pyLower c.name).Pairwise (· ≠ ·) := by
  have hperm : ((insertionSortBy contactScoreDescB l).map fun c => pyLower c.name).Perm
      (l.map fun c => pyLower c.name) := (insertionSortBy_perm _ l).map _
  have hpw2 := (List.Perm.pairwise_iff (fun hab => Ne.symm hab) hperm).mpr h
  rw [List.map_take]
  exact hpw2.sublist (List.take_sublist n _)

/-- Claim C7, amended: in the final list of
`extract_contacts_from_company_data` the case-insensitive names are
pairwise distinct — so at most one contact per name survives (not
exactly one: the top-10 truncation can drop a low-scoring name
entirely) — and every surviving contact agrees, in every field except
the (possibly boosted) relevance score, with the FIRST contact
carrying its case-insensitive name in the team/about/careers/news
aggregation order. -/
theorem C7_theorem (o : Oracles) (pages : List (String × PageRecord))
    (target_role : Option String) :
    ((extract_contacts_from_company_data o pages target_role).map
        (fun c => pyLower c.name)).Pairwise (· ≠ ·) ∧
    ∀ c ∈ extract_contacts_from_company_data o pages target_role,
      ((pooledContacts o pages).find?
          (fun d => pyLower d.name == pyLower c.name)).map
        (fun d => (d.name, d.title, d.email, d.linkedin_url, d.source_page)) =
        some (c.name, c.title, c.email, c.linkedin_url, c.source_page) := by
  have huniqpw := dedupByName_pairwise (pooledContacts o pages) []
  unfold extract_contacts_from_company_data
  rcases target_role with _ | r
  · dsimp only
    refine ⟨pairwise_key_sort_take _ 10 huniqpw, ?_⟩
    intro c hc
    have hc2 := mem_insertionSortBy.mp (List.take_subset _ _ hc)
    rw [dedupByName_find _ _ c hc2]
    rfl
  · dsimp only
    by_cases hr : r.isEmpty
    · rw [show (!r.isEmpty) = false by rw [hr]; rfl]
      simp only [Bool.false_eq_true, if_false]
      refine ⟨pairwise_key_sort_take _ 10 huniqpw, ?_⟩
      intro c hc
      have hc2 := mem_insertionSortBy.mp (List.take_subset _ _ hc)
      rw [dedupByName_find _ _ c hc2]
      rfl
    · rw [show (!r.isEmpty) = true by simp [Bool.eq_false_iff.mpr hr]]
      simp only [if_true]
      constructor
      · refine pairwise_key_sort_take _ 10 ?_
        rw [List.map_map]
        have : ((fun c => pyLower c.name) ∘ boostContact (pySplitWs (pyLower r))) =
            fun c : ExtractedContact => pyLower c.name := by
          funext d
          simp only [Function.comp_apply,
            (boostContact_fields (pySplitWs (pyLower r)) d).1]
        rw [this]
        exact huniqpw
      · intro c hc
        have hc2 := mem_insertionSortBy.mp (List.take_subset _ _ hc)
        rcases List.mem_map.mp hc2 with ⟨d, hd, rfl⟩
        obtain ⟨f1, f2, f3, f4, f5⟩ := boostContact_fields (pySplitWs (pyLower r)) d
        rw [f1, f2, f3, f4, f5]
        rw [dedupByName_find _ _ d hd]
        rfl

/-- The name/title matches of the C7 counterexample: eleven distinct
high-relevance recruiters and two hits of the same low-relevance name
`Zed Zed`. -/
def c7Hits : List (String × String) :=
  [("Ann Bell", "Technical Recruiter"), ("Cara Dunn", "Technical Recruiter"),
   ("Eve Fox", "Technical Recruiter"), ("Gia Hart", "Technical Recruiter"),
   ("Ivy Jones", "Technical Recruiter"), ("Kay Lamb", "Technical Recruiter"),
   ("Mia Nash", "Technical Recruiter"), ("Ora Pratt", "Technical Recruiter"),
   ("Ruth Stone", "Technical Recruiter"), ("Uma Vance", "Technical Recruiter"),
   ("Wren York", "Technical Recruiter"),
   ("Zed Zed", "President"), ("Zed Zed", "President")]

/-- Oracle of the C7 counterexample. -/
def c7Oracle : Oracles := { noMatchOracles with nameTitleMatches1 := fun _ => c7Hits }

/-- Page map of the C7 counterexample: one team page. -/
def c7Pages : List (String × PageRecord) :=
  [("team", ⟨"https://example.com/team", "Team", "T", "", 1, "now"⟩)]

/-- Claim C7 counterexample: two extraction hits produce the name
`Zed Zed` (case-insensitively equal), yet ZERO `ExtractedContact`
with that name survives in the final list: `Zed Zed` scores 0.5
against eleven 0.9-scoring recruiters and the top-10 cap drops it, so
"exactly one survives" is false. -/
theorem C7_counterexample :
    ((c7Oracle.nameTitleMatches1 "T").filter (fun p => pyLower p.1 == "zed zed")).length
      = 2 ∧
    (extract_contacts_from_company_data c7Oracle c7Pages none).filter
      (fun c => pyLower c.name == "zed zed") = [] :=
  ⟨rfl, by with_unfolding_all rfl⟩

/-- The `headD` of a nonempty list is a member. -/
theorem headD_mem {α : Type} (l : List α) (d : α) (h : l ≠ []) : l.headD d ∈ l := by
  cases l with
  | nil => exact absurd rfl h
  | cons x xs => exact List.mem_cons_self x xs

/-- The final contact list of the C7 witness scenario. -/
def c7final : List ExtractedContact :=
  extract_contacts_from_company_data c7Oracle c7Pages none

/-- Its first contact. -/
def c7c : ExtractedContact := c7final.headD ⟨"", none, none, none, "", 0⟩

/-- Witness for C7: the top surviving contact is the first pooled
occurrence of its name. -/
theorem C7_witness :
    ((pooledContacts c7Oracle c7Pages).find?
        (fun d => pyLower d.name == pyLower c7c.name)).map
      (fun d => (d.name, d.title, d.email, d.linkedin_url, d.source_page)) =
      some (c7c.name, c7c.title, c7c.email, c7c.linkedin_url, c7c.source_page) :=
  (C7_theorem c7Oracle c7Pages none).2 c7c
    (headD_mem c7final _ (by
      intro he
      have hlen : c7final.length = 10 := by with_unfolding_all rfl
      rw [he] at hlen
      simp at hlen))

/-! ### C8: job dedup, descending sort, top-20 cap -/

/-- Invariant of the job-scan state: the accumulated jobs carry
pairwise distinct case-insensitive titles, and every accumulated
title's lowercase form is recorded in the seen set. -/

def jobsInv (st : JobScanState) : Prop :=
  (st.jobs.map fun j => pyLower j.title).Pairwise (· ≠ ·) ∧
  ∀ j ∈ st.jobs, pyLower j.title ∈ st.seen

theorem jobsInv_key_mem {st : JobScanState} (h : jobsInv st) :
    ∀ k ∈ (st.jobs.map fun j => pyLower j.title), k ∈ st.seen := by
  intro k hk
  rcases List.mem_map.mp hk with ⟨j, hj, rfl⟩
  exact h.2 j hj

theorem jobsInv_append (st : JobScanState) (t : String) (sc : ℚ) (u : Option String)
    (h : jobsInv st) (hnew : pyLower t ∉ st.seen) :
    jobsInv ⟨st.jobs ++ [⟨t, sc, u⟩], st.seen ++ [pyLower t], st.found⟩ := by
  obtain ⟨h1, h2⟩ := h
  constructor
  · rw [List.map_append, List.pairwise_append]
    refine ⟨h1, by simp, ?_⟩
    intro a ha b hb
    simp only [List.map_cons, List.map_nil, List.mem_singleton] at hb
    subst hb
    intro he
    exact hnew (he ▸ jobsInv_key_mem ⟨h1, h2⟩ a ha)
  · intro j hj
    rcases List.mem_append.mp hj with hl | hr
    · exact List.mem_append_left _ (h2 j hl)
    · simp only [List.mem_singleton] at hr
      subst hr
      exact List.mem_append_right _ (by simp)

theorem jobTitleStep_inv (tr : Option String) (st : JobScanState) (m : String)
    (h : jobsInv st) : jobsInv (jobTitleStep tr st m) := by
  unfold jobTitleStep
  dsimp only
  split
  · exact h
  · next hcond =>
    have hns : pyLower (pyStrip m) ∉ st.seen := by
      intro hmem
      exact hcond (Bool.or_eq_true_iff.mpr (Or.inl (List.elem_iff.mpr hmem)))
    exact jobsInv_append st (pyStrip m) _ none h hns

theorem attachUrlToJobs_titles (url up : String) :
    ∀ l : List JobListing,
      ((attachUrlToJobs url up l).1.map fun j => pyLower j.title) =
        l.map fun j => pyLower j.title := by
  intro l
  induction l with
  | nil => rfl
  | cons j rest ih =>
    simp only [attachUrlToJobs]
    split
    · simp only [List.map_cons]
      congr 1
      split <;> rfl
    · simp only [List.map_cons, ih]

theorem jsonPatternStep_inv (lastUrl : Option String) (st : JobScanState)
    (ml : List String) (st' : JobScanState)
    (h : jsonPatternStep lastUrl st ml = Except.ok st') (hi : jobsInv st) :
    jobsInv st' := by
  unfold jsonPatternStep at h
  split at h
  · rw [Except.ok.injEq] at h
    exact h ▸ hi
  · split at h
    · exact absurd h (by simp)
    · next url =>
      dsimp only at h
      have hattach : jobsInv ⟨(attachUrlToJobs url
          (pyReplace (pyReplace (pyReplace (pyLower url) "-" " ") "_" " ") "/" " ")
          st.jobs).1, st.seen,
          (ml.take 10).foldl
            (fun acc m => if acc.contains m = true then acc else acc ++ [m])
            st.found⟩ := by
        constructor
        · rw [attachUrlToJobs_titles]
          exact hi.1
        · intro j hj
          have hk : pyLower j.title ∈
              ((attachUrlToJobs url
                (pyReplace (pyReplace (pyReplace (pyLower url) "-" " ") "_" " ") "/" " ")
                st.jobs).1.map fun j => pyLower j.title) :=
            List.mem_map.mpr ⟨j, hj, rfl⟩
          rw [attachUrlToJobs_titles] at hk
          rcases List.mem_map.mp hk with ⟨j0, hj0, he⟩
          exact he ▸ hi.2 j0 hj0
      split at h
      · rw [Except.ok.injEq] at h
        exact h ▸ hattach
      · split at h
        · split at h
          · next hguard =>
            split at h
            · rw [Except.ok.injEq] at h
              subst h
              have hns : pyLower (pyTitle (pyReplace (pyReplace
                  ((pySplitOn url "/").getLastD "") "-" " ") "_" " ")) ∉ st.seen := by
                rw [pyLower_pyTitle]
                intro hmem
                rw [Bool.and_eq_true] at hguard
                have := hguard.2
                rw [Bool.not_eq_true'] at this
                have hco : st.seen.contains _ = true := List.elem_iff.mpr hmem
                rw [this] at hco
                exact Bool.false_ne_true hco
              have := jobsInv_append
                ⟨(attachUrlToJobs url
                    (pyReplace (pyReplace (pyReplace (pyLower url) "-" " ") "_" " ") "/" " ")
                    st.jobs).1, st.seen,
                  (ml.take 10).foldl
                    (fun acc m => if acc.contains m = true then acc else acc ++ [m])
                    st.found⟩
                (pyTitle (pyReplace (pyReplace
                  ((pySplitOn url "/").getLastD "") "-" " ") "_" " ")) 0 (some url)
                hattach hns
              rw [pyLower_pyTitle] at this
              exact this
            · rw [Except.ok.injEq] at h
              exact h ▸ hattach
          · rw [Except.ok.injEq] at h
            exact h ▸ hattach
        · rw [Except.ok.injEq] at h
          exact h ▸ hattach

theorem htmlTitleStep_inv (st : JobScanState) (m : String)
    (h : jobsInv st) : jobsInv (htmlTitleStep st m) := by
  unfold htmlTitleStep
  dsimp only
  split
  · split
    · next hcond hkw =>
      have hns : pyLower (pyStrip m) ∉ st.seen := by
        intro hmem
        rw [Bool.and_eq_true, Bool.and_eq_true] at hcond
        have := hcond.2
        rw [Bool.not_eq_true'] at this
        have hco : st.seen.contains _ = true := List.elem_iff.mpr hmem
        rw [this] at hco
        exact Bool.false_ne_true hco
      exact jobsInv_append st (pyStrip m) 0 none h hns
    · exact h
  · exact h

theorem except_ok_bind {ε α β : Type} (a : α) (f : α → Except ε β) :
    (Except.ok a >>= f : Except ε β) = f a := rfl

theorem except_pure_bind {ε α β : Type} (a : α) (f : α → Except ε β) :
    ((pure a : Except ε α) >>= f) = f a := rfl

theorem except_error_bind {ε α β : Type} (e : ε) (f : α → Except ε β) :
    (Except.error e >>= f : Except ε β) = Except.error e := rfl

theorem foldlMRec {α β ε : Type} (P : β → Prop) (f : β → α → Except ε β)
    (hf : ∀ st a st', f st a = .ok st' → P st → P st') :
    ∀ (xs : List α) (st st' : β), xs.foldlM f st = .ok st' → P st → P st' := by
  intro xs
  induction xs with
  | nil =>
    intro st st' h hp
    injection h with h
    exact h ▸ hp
  | cons x rest ih =>
    intro st st' h hp
    rw [List.foldlM_cons] at h
    rcases hfx : f st x with e | st1
    · rw [hfx, except_error_bind] at h
      cases h
    · rw [hfx, except_ok_bind] at h
      exact ih st1 st' h (hf st x st1 hfx hp)

theorem jobs_final_props (jobs : List JobListing)
    (hpw : (jobs.map fun j => pyLower j.title).Pairwise (· ≠ ·)) :
    ((insertionSortBy jobScoreDescB jobs).take 20).length ≤ 20 ∧
    (((insertionSortBy jobScoreDescB jobs).take 20).map
      fun j => pyLower j.title).Pairwise (· ≠ ·) ∧
    ((insertionSortBy jobScoreDescB jobs).take 20).Pairwise
      (fun a b => b.match_score ≤ a.match_score) := by
  refine ⟨List.length_take_le 20 _, ?_, ?_⟩
  · have hperm : ((insertionSortBy jobScoreDescB jobs).map fun j => pyLower j.title).Perm
        (jobs.map fun j => pyLower j.title) := (insertionSortBy_perm _ jobs).map _
    have hpw2 := (List.Perm.pairwise_iff (fun hab => Ne.symm hab) hperm).mpr hpw
    rw [List.map_take]
    exact hpw2.sublist (List.take_sublist 20 _)
  · have hs := insertionSortBy_pairwise jobScoreDescB
      (fun a b => by
        unfold jobScoreDescB
        rcases le_total b.match_score a.match_score with h | h <;> simp [h])
      (fun a b c h1 h2 => by
        unfold jobScoreDescB at h1 h2 ⊢
        rw [decide_eq_true_eq] at h1 h2
        rw [decide_eq_true_eq]
        exact le_trans h2 h1)
      jobs
    have hs2 : (insertionSortBy jobScoreDescB jobs).Pairwise
        (fun a b => b.match_score ≤ a.match_score) := by
      refine hs.imp ?_
      intro a b h
      unfold jobScoreDescB at h
      rwa [decide_eq_true_eq] at h
    exact hs2.sublist (List.take_sublist 20 _)

/-- C8: on any call of extract_job_listings that returns normally, the
resulting list has at most 20 entries, carries pairwise distinct
case-insensitive titles (so two case-insensitively equal title matches
yield AT MOST one listing — possibly zero, see the counterexample),
and is sorted in descending order of match score. -/
theorem C8_theorem (o : Oracles) (text : String) (html : Option String)
    (target_role : Option String) (l : List JobListing)
    (h : extract_job_listings o text html target_role = Except.ok l) :
    l.length ≤ 20 ∧
    (l.map fun j => pyLower j.title).Pairwise (· ≠ ·) ∧
    l.Pairwise (fun a b => b.match_score ≤ a.match_score) := by
  have hst1 : jobsInv ((o.jobPatternMatches text).flatten.foldl
      (jobTitleStep target_role) ⟨[], [], []⟩) := by
    refine foldlRec jobsInv (jobTitleStep target_role)
      (fun st a hp => jobTitleStep_inv target_role st a hp) _ _ ?_
    exact ⟨by simp, by simp⟩
  unfold extract_job_listings at h
  rcases html with _ | hh
  · dsimp only at h
    rw [except_pure_bind] at h
    injection h with h
    subst h
    exact jobs_final_props _ hst1.1
  · dsimp only at h
    by_cases hhe : hh.isEmpty
    · rw [show (!hh.isEmpty) = false by rw [hhe]; rfl] at h
      simp only [Bool.false_eq_true, if_false] at h
      rw [except_pure_bind] at h
      injection h with h
      subst h
      exact jobs_final_props _ hst1.1
    · rw [show (!hh.isEmpty) = true by simp [Bool.eq_false_iff.mpr hhe]] at h
      simp only [if_true] at h
      rcases hfm : (o.jsonUrlPatternMatches hh).foldlM
          (jsonPatternStep (hrefUrlScan o hh).2)
          { (o.jobPatternMatches text).flatten.foldl (jobTitleStep target_role)
              ⟨[], [], []⟩ with found := (hrefUrlScan o hh).1 } with e | st2
      · rw [hfm] at h
        cases h
      · rw [hfm] at h
        injection h with h
        subst h
        have hinv2 : jobsInv st2 := by
          refine foldlMRec jobsInv _ (fun st a st' hok hp =>
            jsonPatternStep_inv _ st a st' hok hp) _ _ _ hfm ?_
          exact ⟨hst1.1, hst1.2⟩
        have hinv3 : jobsInv (((o.htmlTitlePatternMatches hh).map
            (List.take 20)).flatten.foldl htmlTitleStep st2) :=
          foldlRec jobsInv htmlTitleStep (fun st a hp => htmlTitleStep_inv st a hp)
            _ _ hinv2
        exact jobs_final_props _ hinv3.1


/-- The 23 title matches for the C8 counterexample: 21 distinct filler
openings followed by the same title twice with different casing. -/
def c8Titles : List String :=
  ["Opening 01",
   "Opening 02",
   "Opening 03",
   "Opening 04",
   "Opening 05",
   "Opening 06",
   "Opening 07",
   "Opening 08",
   "Opening 09",
   "Opening 10",
   "Opening 11",
   "Opening 12",
   "Opening 13",
   "Opening 14",
   "Opening 15",
   "Opening 16",
   "Opening 17",
   "Opening 18",
   "Opening 19",
   "Opening 20",
   "Opening 21",
   "Software Engineer",
   "software engineer"]

/-- Oracle whose text-pattern scan yields `c8Titles` and nothing else. -/
def c8Oracle : Oracles :=
  { noMatchOracles with jobPatternMatches := fun _ => [c8Titles] }

/-- The concrete list `extract_job_listings` returns on the C8 oracle. -/
def c8final : List JobListing :=
  (extract_job_listings c8Oracle "jobs" none none).toOption.getD []

set_option maxRecDepth 4000 in
/-- C8 counterexample: among the title matches, two are equal
case-insensitively (both lower to "software engineer"), yet the
returned list contains ZERO listings with that title — not exactly
one — because the deduplicated listing is dropped by the final top-20
truncation. -/
theorem C8_counterexample :
    c8Titles.countP (fun m => pyLower (pyStrip m) == "software engineer") = 2 ∧
    (extract_job_listings c8Oracle "jobs" none none).toOption.map
      (fun l => l.countP (fun j => pyLower j.title == "software engineer")) = some 0 :=
  ⟨by with_unfolding_all rfl, by with_unfolding_all rfl⟩

set_option maxRecDepth 4000 in
/-- C8 witness: the theorem applied to the concrete C8 oracle run,
whose result has 20 entries. -/
theorem C8_witness :
    c8final.length ≤ 20 ∧
    (c8final.map fun j => pyLower j.title).Pairwise (· ≠ ·) ∧
    c8final.Pairwise (fun a b => b.match_score ≤ a.match_score) :=
  C8_theorem c8Oracle "jobs" none none c8final (by with_unfolding_all rfl)
